import Mathlib

/-!
# Verification of the cueToRdf cue-sheet-to-RDF pipeline (src/cueParse.py)

A shallow embedding of the core of `cueParse.py`:

* a small library mirroring the Python string operations used by the source
  (`strip`, `startswith`, `split`, `replace`, `str.lower`, `urllib.parse.quote`,
  `os.path.normpath`, `pathlib` parent/name, `os.path.join`);
* the line-oriented cue parser `parse_cue_file` as a step function over lines,
  returning `Except Unit` so that the Python `KeyError` sites
  (`parsed[current_track][...]` with no open track) are modelled as errors;
* the namespace-branching rewriter `_map_uri_for_branch` / `_remap_graph_for_branch`;
* the media-root selection loop of `build_rdf_content`;
* the MusicBrainz rate gate `mb_get` as a timed trace model;
* the external-track disambiguation step of `build_rdf_content`;
* the full entity-graph builder `build_rdf_content`, with the external effects
  (MusicBrainz fetches, the filesystem) passed in as explicit oracles and the
  rdflib `BNode()` generator modelled as an explicit label seed.

RDF graphs are modelled as duplicate-free lists of triples (rdflib `Graph.add`
is set insertion); iteration order matches source order.
-/

namespace CueToRdf

/-! ## Python string helpers -/

/-- Characters removed by Python `str.strip()` with no argument. -/
def pyWs (c : Char) : Bool :=
  c = ' ' || c = '\t' || c = '\n' || c = '\r' || c = '\x0b' || c = '\x0c'

/-- Drop chars satisfying `p` from both ends of a char list. -/
def stripWhile (p : Char → Bool) (l : List Char) : List Char :=
  ((l.dropWhile p).reverse.dropWhile p).reverse

/-- Python `s.strip()`. -/
def pyStrip (s : String) : String := ⟨stripWhile pyWs s.data⟩

/-- Python `s.strip(chars)`. -/
def pyStripSet (s : String) (set : List Char) : String :=
  ⟨stripWhile (fun c => set.contains c) s.data⟩

/-- Python `s.lstrip(chars)`. -/
def pyLStripSet (s : String) (set : List Char) : String :=
  ⟨s.data.dropWhile (fun c => set.contains c)⟩

/-- Python `s.rstrip(chars)`. -/
def pyRStripSet (s : String) (set : List Char) : String :=
  ⟨(s.data.reverse.dropWhile (fun c => set.contains c)).reverse⟩

/-- Python `s.startswith(p)`. -/
def pyStartsWith (s p : String) : Bool := p.data.isPrefixOf s.data

/-- Python `s.endswith(p)`. -/
def pyEndsWith (s p : String) : Bool := p.data.isSuffixOf s.data

/-- Python `s.lower()` (ASCII case mapping suffices for the cue keys). -/
def pyLower (s : String) : String := ⟨s.data.map Char.toLower⟩

/-- Index of the first occurrence of `pat` in `l`, if any. -/
def findSubIdx (pat : List Char) : List Char → Option Nat
  | [] => if pat.isPrefixOf ([] : List Char) then some 0 else none
  | c :: rest =>
    if pat.isPrefixOf (c :: rest) then some 0
    else (findSubIdx pat rest).map (· + 1)

/-- Python `s.split(sep)` for a non-empty separator (fuel-driven; each split
consumes at least one character, so `l.length` fuel is exact). -/
def splitSepGo (pat : List Char) : Nat → List Char → List (List Char)
  | 0, l => [l]
  | fuel + 1, l =>
    if pat = [] then [l]
    else
      match findSubIdx pat l with
      | none => [l]
      | some i => l.take i :: splitSepGo pat fuel (l.drop (i + pat.length))

def splitSepL (pat : List Char) (l : List Char) : List (List Char) :=
  splitSepGo pat l.length l

/-- Python `s.split(sep)`. -/
def pySplit (s sep : String) : List String :=
  (splitSepL sep.data s.data).map (fun l => ⟨l⟩)

/-- Python `s.replace(pat, rep)` for non-empty `pat` (left-to-right,
non-overlapping; every pattern used by the source is non-empty; fuel-driven,
each step consumes at least one character). -/
def replaceGo (pat rep : List Char) : Nat → List Char → List Char
  | 0, l => l
  | _ + 1, [] => []
  | fuel + 1, c :: rest =>
    if pat ≠ [] ∧ pat.isPrefixOf (c :: rest) then
      rep ++ replaceGo pat rep fuel ((c :: rest).drop pat.length)
    else
      c :: replaceGo pat rep fuel rest

def replaceL (pat rep l : List Char) : List Char := replaceGo pat rep l.length l

/-- Python `s.replace(pat, rep)`. -/
def pyReplace (s pat rep : String) : String := ⟨replaceL pat.data rep.data s.data⟩

/-- `s.contains c` on the underlying chars. -/
def pyContainsChar (s : String) (c : Char) : Bool := s.data.contains c

/-- Substring containment (Python `sub in s`). -/
def pyContainsSub (s sub : String) : Bool := (findSubIdx sub.data s.data).isSome

/-- The UTF-8 bytes of a character (as `Nat`s below 256). -/
def utf8Bytes (c : Char) : List Nat :=
  let n := c.toNat
  if n < 0x80 then [n]
  else if n < 0x800 then [0xC0 + n / 64, 0x80 + n % 64]
  else if n < 0x10000 then [0xE0 + n / 4096, 0x80 + (n / 64) % 64, 0x80 + n % 64]
  else [0xF0 + n / 0x40000, 0x80 + (n / 4096) % 64, 0x80 + (n / 64) % 64, 0x80 + n % 64]

def hexDigitUpper (n : Nat) : Char :=
  if n < 10 then Char.ofNat (48 + n) else Char.ofNat (55 + n)

/-- `urllib.parse.quote` keeps ASCII alphanumerics, `_.-~` and (by the default
`safe='/'`) the slash; everything else is percent-encoded per UTF-8 byte. -/
def quoteByteKeep (b : Nat) : Bool :=
  (48 ≤ b && b ≤ 57) || (65 ≤ b && b ≤ 90) || (97 ≤ b && b ≤ 122) ||
  b = 95 || b = 46 || b = 45 || b = 126 || b = 47

/-- `urllib.parse.quote(s)` with the default `safe='/'`. -/
def pyQuote (s : String) : String :=
  ⟨(s.data.flatMap utf8Bytes).flatMap fun b =>
    if quoteByteKeep b then [Char.ofNat b]
    else ['%', hexDigitUpper (b / 16), hexDigitUpper (b % 16)]⟩

/-! ## POSIX path helpers (`os.path.normpath`, `pathlib`, `os.path.join`) -/

/-- Number of leading slashes kept by `os.path.normpath` (POSIX): exactly two
leading slashes are preserved, one or three-plus collapse to one. -/
def normpathSlashes (l : List Char) : Nat :=
  if ['/', '/'].isPrefixOf l ∧ ¬ ['/', '/', '/'].isPrefixOf l then 2
  else if ['/'].isPrefixOf l then 1
  else 0

/-- The `'..'`-resolution loop of CPython `posixpath.normpath`. -/
def normpathComps (slashes : Nat) (comps : List (List Char)) : List (List Char) :=
  comps.foldl
    (fun acc comp =>
      if comp ≠ ['.', '.'] ∨ (slashes = 0 ∧ acc = []) ∨ acc.getLast? = some ['.', '.'] then
        acc ++ [comp]
      else if acc ≠ [] then acc.dropLast
      else acc)
    []

/-- `os.path.normpath` (POSIX). -/
def posixNormpath (s : String) : String :=
  if s = "" then "." else
  let l := s.data
  let slashes := normpathSlashes l
  let comps := (splitSepL ['/'] l).filter (fun c => c ≠ [] ∧ c ≠ ['.'])
  let newComps := normpathComps slashes comps
  let res := List.replicate slashes '/' ++ List.intercalate ['/'] newComps
  if res = [] then "." else ⟨res⟩

/-- `normalize_path` (cueParse.py line 210): normpath, backslashes to slashes,
strip trailing slashes. -/
def normalize_path (path : String) : String :=
  pyRStripSet (pyReplace (posixNormpath path) "\\" "/") ['/']

/-- `pathlib.PurePosixPath` parse: (root, components). Exactly two leading
slashes are a special root; `''` and `'.'` components are dropped. -/
def pathlibParse (s : String) : String × List String :=
  let l := s.data
  let root : String :=
    if ['/', '/'].isPrefixOf l ∧ ¬ ['/', '/', '/'].isPrefixOf l then "//"
    else if ['/'].isPrefixOf l then "/"
    else ""
  let parts := ((splitSepL ['/'] l).filter (fun c => c ≠ [] ∧ c ≠ ['.'])).map
    (fun c => (⟨c⟩ : String))
  (root, parts)

/-- Render a pathlib (root, parts) pair back to a string (`as_posix`). -/
def pathlibStr (root : String) (parts : List String) : String :=
  if parts = [] then (if root = "" then "." else root)
  else root ++ String.intercalate "/" parts

/-- `pathlib.Path(s).parent.as_posix()`. -/
def pathParent (s : String) : String :=
  let (root, parts) := pathlibParse s
  pathlibStr root parts.dropLast

/-- `pathlib.Path(s).name`. -/
def pathName (s : String) : String :=
  let (_, parts) := pathlibParse s
  parts.getLastD ""

/-- `os.path.join(a, b)` (POSIX, two arguments). -/
def osJoin (a b : String) : String :=
  if pyStartsWith b "/" then b
  else if a = "" then b
  else if pyEndsWith a "/" then a ++ b
  else a ++ "/" ++ b

/-! ## RDF terms and graphs

rdflib `Graph` is a set of triples; `add` inserts, `+=` unions.  We model a
graph as a duplicate-free list in insertion order (insertion order is
irrelevant to the claims, which only use membership and equality of two runs
of the same code).  `BNode()` labels are modelled as naturals from an explicit
supply (rdflib draws a fresh random UUID-based label per call, so distinct
runs get distinct labels). -/

inductive Term where
  | uri (s : String)
  | lit (s : String)
  | litTyped (s : String) (dt : String)
  | litInt (n : Int)
  | bnode (n : Nat)
deriving DecidableEq, Repr

abbrev Triple := Term × Term × Term

abbrev Graph := List Triple

/-- rdflib `Graph.add`: set insertion. -/
def gadd (g : Graph) (t : Triple) : Graph := if t ∈ g then g else g ++ [t]

/-- rdflib `g += h`: add all triples of `h` to `g`, in `h`'s order. -/
def gunion (g h : Graph) : Graph := h.foldl gadd g

/-! ## Namespace and vocabulary constants (cueParse.py lines 53-75) -/

def ssvBase : String := "https://w3id.org/ssv/"
def nsMO : String := "http://purl.org/ontology/mo/"
def nsTL : String := "http://purl.org/NET/c4dm/timeline.owl#"
def nsEV : String := "https://purl.org/NET/c4dm/event.owl#"
def nsARTIST : String := "https://musicbrainz.org/artist/"
def nsRELEASE : String := "https://musicbrainz.org/release/"
def nsISRC : String := "https://musicbrainz.org/isrc/"
def nsTRACK : String := "https://musicbrainz.org/track/"
def nsLABEL : String := "https://musicbrainz.org/label/"

/-- Unbranched SSV namespaces, `get_ssv_namespaces(None)` (lines 78-104). -/
def nsSSVRelease : String := ssvBase ++ "data/release/"
def nsSSVReleaseEvent : String := ssvBase ++ "data/release_event/"
def nsSSVSignal : String := ssvBase ++ "data/signal/"
def nsSSVRecord : String := ssvBase ++ "data/record/"
def nsSSVTrack : String := ssvBase ++ "data/track/"
def nsSSVPerformance : String := ssvBase ++ "data/performance/"
def nsSSVPerformer : String := ssvBase ++ "data/performer/"
def nsSSVPeaks : String := ssvBase ++ "data/peaks/"
def nsSSVAudio : String := ssvBase ++ "audio/"
def nsSSVO : String := ssvBase ++ "vocab#"

def rdfType : String := "http://www.w3.org/1999/02/22-rdf-syntax-ns#type"
def rdfsLabel : String := "http://www.w3.org/2000/01/rdf-schema#label"
def dctermsTitle : String := "http://purl.org/dc/terms/title"
def dctermsIssued : String := "http://purl.org/dc/terms/issued"
def dctermsPublisher : String := "http://purl.org/dc/terms/publisher"
def foafName : String := "http://xmlns.com/foaf/0.1/name"
def foafOrganization : String := "http://xmlns.com/foaf/0.1/Organization"
def xsdDate : String := "http://www.w3.org/2001/XMLSchema#date"
def xsdGYear : String := "http://www.w3.org/2001/XMLSchema#gYear"

def moRelease : String := nsMO ++ "Release"
def moRecord : String := nsMO ++ "Record"
def moRecordProp : String := nsMO ++ "record"
def moTrackProp : String := nsMO ++ "track"
def moTrackCount : String := nsMO ++ "track_count"
def moMusicbrainz : String := nsMO ++ "musicbrainz"
def moCatalogueNumber : String := nsMO ++ "catalogue_number"
def moReleaseEvent : String := nsMO ++ "ReleaseEvent"
def moReleaseProp : String := nsMO ++ "release"
def moSignal : String := nsMO ++ "Signal"
def moPublishedAs : String := nsMO ++ "published_as"
def moIsrc : String := nsMO ++ "isrc"
def moTrack : String := nsMO ++ "Track"
def moTrackNumber : String := nsMO ++ "track_number"
def moAvailableAs : String := nsMO ++ "available_as"
def moMusicalWork : String := nsMO ++ "MusicalWork"
def moPerformance : String := nsMO ++ "Performance"
def moRecordedAs : String := nsMO ++ "recorded_as"
def moPerformanceOf : String := nsMO ++ "performance_of"
def moMusicArtist : String := nsMO ++ "MusicArtist"
def moPerformed : String := nsMO ++ "performed"
def moPublicationOf : String := nsMO ++ "publication_of"
def evEvent : String := nsEV ++ "Event"
def evTime : String := nsEV ++ "time"
def tlInstant : String := nsTL ++ "Instant"
def tlAtYear : String := nsTL ++ "atYear"
def ssvoPeaks : String := nsSSVO ++ "peaks"
def ssvoLocalPath : String := nsSSVO ++ "localPath"

/-! ## The cue parser (`parse_cue_file`, cueParse.py lines 248-329)

Each regex of the source is a prefix matcher on the stripped line; `re.match`
anchors at the start only.  The regexes using `" *"` skip leading spaces
(redundant after `line.strip()`, kept for fidelity).  `re`'s `\d` is modelled
as ASCII digits. -/

/-- Capture of `re.match("PRE(.*$)", line)`: the rest of the line after the
literal prefix. -/
def capAfter (pre line : String) : Option String :=
  if pre.data.isPrefixOf line.data then some ⟨line.data.drop pre.data.length⟩ else none

/-- Capture of `re.match(" *PRE(.*$)", line)`. -/
def capAfterSp (pre line : String) : Option String :=
  let l := line.data.dropWhile (· = ' ')
  if pre.data.isPrefixOf l then some ⟨l.drop pre.data.length⟩ else none

def digitsToNat (ds : List Char) : Nat :=
  ds.foldl (fun a c => a * 10 + (c.toNat - 48)) 0

/-- `re.match(" *TRACK (\\d+) AUDIO", line)`, returning the track number. -/
def trackMatch (line : String) : Option Nat :=
  let l := line.data.dropWhile (· = ' ')
  if "TRACK ".data.isPrefixOf l then
    let r := l.drop 6
    let ds := r.takeWhile Char.isDigit
    if ds ≠ [] ∧ " AUDIO".data.isPrefixOf (r.dropWhile Char.isDigit) then
      some (digitsToNat ds)
    else none
  else none

/-- `re.match('FILE "(.*)" WAVE$', line)`, returning the captured filename. -/
def fileMatch (line : String) : Option String :=
  if pyStartsWith line "FILE \"" ∧ pyEndsWith line "\" WAVE" ∧ line.data.length ≥ 12 then
    some ⟨(line.data.drop 6).take (line.data.length - 12)⟩
  else none

/-- Last index of `' '` in `l`, if any. -/
def lastSpaceIdx (l : List Char) : Option Nat :=
  match l.reverse.findIdx? (· = ' ') with
  | none => none
  | some j => some (l.length - 1 - j)

/-- `re.match('REM *(.*) (.*)', line)`: greedy semantics — after `REM` and a
maximal run of spaces (backing off one space when needed), the first group is
everything before the last space, the second everything after it. -/
def remGeneric (line : String) : Option (String × String) :=
  if "REM".data.isPrefixOf line.data then
    let rest0 := line.data.drop 3
    let k := (rest0.takeWhile (· = ' ')).length
    let rest1 := rest0.drop k
    match lastSpaceIdx rest1 with
    | some i => some (⟨rest1.take i⟩, ⟨rest1.drop (i + 1)⟩)
    | none => if 1 ≤ k then some ("", ⟨rest1⟩) else none
  else none

/-- Python dict assignment `d[k] = v`: replace in place if present (dicts keep
the original position of an updated key), else append. -/
def assocSet {α β : Type} [DecidableEq α] (k : α) (v : β) (xs : List (α × β)) :
    List (α × β) :=
  if xs.any (fun p => p.1 = k) then
    xs.map (fun p => if p.1 = k then (p.1, v) else p)
  else xs ++ [(k, v)]

/-- Python dict lookup `d.get(k)` (keys are unique, so the first hit is it). -/
def assocGet {α β : Type} [DecidableEq α] (k : α) (xs : List (α × β)) : Option β :=
  (xs.find? (fun p => p.1 = k)).map (fun p => p.2)

abbrev Fields := List (String × String)

/-- Parser state: the `parsed` dict (header / mbz artist list / tracks held in
separate components of matching semantics), plus `current_track` and
`current_file`. -/
structure ParseState where
  header : List (String × String)
  mbzArtistList : Option (List String)
  tracks : List (Nat × Fields)
  currentTrack : Option Nat
  currentFile : Option String
deriving DecidableEq, Repr

def initState : ParseState := ⟨[], none, [], none, none⟩

/-- `parsed[current_track][k] = v`.  Python raises `KeyError` when
`current_track` is `None` (or the key is somehow missing), modelled as
`Except.error`. -/
def setTrackField (st : ParseState) (k v : String) : Except Unit ParseState :=
  match st.currentTrack with
  | none => .error ()
  | some n =>
    if st.tracks.any (fun p => p.1 = n) then
      .ok { st with
        tracks := st.tracks.map (fun p => if p.1 = n then (p.1, assocSet k v p.2) else p) }
    else .error ()

/-- One line of `parse_cue_file`'s loop (lines 260-328), on the already
stripped line. -/
def stepCueLine (st : ParseState) (line : String) : Except Unit ParseState :=
  if st.currentTrack = none ∧ ¬ pyStartsWith line "FILE" ∧ ¬ pyStartsWith line "TRACK" then
    -- header branch (lines 262-289)
    match capAfter "REM MUSICBRAINZ_ALBUM_ARTIST_ID " line with
    | some c => .ok { st with mbzArtistList := some (pySplit c ";") }
    | none =>
    match capAfter "REM MUSICBRAINZ_ALBUM_ID " line with
    | some c => .ok { st with header := assocSet "mbz_album_id" c st.header }
    | none =>
    match remGeneric line with
    | some kv => .ok { st with header := assocSet (pyLower kv.1) kv.2 st.header }
    | none =>
    match capAfter "CATALOG " line with
    | some c => .ok { st with header := assocSet "catalog" c st.header }
    | none =>
    match capAfter "TITLE " line with
    | some c => .ok { st with header := assocSet "title" c st.header }
    | none =>
    match capAfter "PERFORMER " line with
    | some c => .ok { st with header := assocSet "performer" c st.header }
    | none =>
    match trackMatch line with
    | some n =>
      -- dead after `line.strip()` (such a line starts with TRACK), kept for fidelity
      .ok { st with tracks := assocSet n [] st.tracks, currentTrack := some n }
    | none => .ok st
  else
    -- body branch (lines 290-328)
    match capAfterSp "TITLE " line with
    | some c => setTrackField st "title" c
    | none =>
    match capAfterSp "REM MUSICBRAINZ_TRACK_ID " line with
    | some c => setTrackField st "mbz_track" c
    | none =>
    match capAfterSp "REM MUSICBRAINZ_ARTIST_ID " line with
    | some c => setTrackField st "mbz_artist" c
    | none =>
    match capAfterSp "PERFORMER " line with
    | some c => setTrackField st "performer" c
    | none =>
    match capAfterSp "ISRC " line with
    | some c => setTrackField st "isrc" c
    | none =>
    match capAfterSp "PREGAP " line with
    | some c => setTrackField st "pregap" c
    | none =>
    match capAfterSp "INDEX 01 " line with
    | some c => setTrackField st "index" c
    | none =>
    match trackMatch line with
    | some n =>
      -- `parsed[n] = {}`, then bind the buffered file if truthy (lines 316-322)
      let fields : Fields :=
        match st.currentFile with
        | some f => if f ≠ "" then [("file", f)] else []
        | none => []
      .ok { st with tracks := assocSet n fields st.tracks, currentTrack := some n }
    | none =>
    match fileMatch line with
    | some f => .ok { st with currentFile := some f }
    | none => .ok st

/-- One line of the loop: `line = line.strip()` first (line 261). -/
def stepCue (st : ParseState) (rawLine : String) : Except Unit ParseState :=
  stepCueLine st (pyStrip rawLine)

/-- Run the parser loop over a list of (raw) lines. -/
def runLines (st : ParseState) : List String → Except Unit ParseState
  | [] => .ok st
  | l :: ls =>
    match stepCue st l with
    | .error e => .error e
    | .ok st' => runLines st' ls

/-- The parsed cue document: `file_path`, the header dict, and the tracks
(the Python `parsed` dict holds these as its keys; `len(parsed)` is
`2 + tracks.length`). -/
structure CueDoc where
  filePath : String
  header : List (String × String)
  mbzArtistList : Option (List String)
  tracks : List (Nat × Fields)
deriving DecidableEq, Repr

/-- `parse_cue_file` on the (readable) file's lines. -/
def parse_cue_file (filePath : String) (lines : List String) : Except Unit CueDoc :=
  match runLines initState lines with
  | .error e => .error e
  | .ok st => .ok ⟨filePath, st.header, st.mbzArtistList, st.tracks⟩

/-! ## Namespace branching (`_map_uri_for_branch` / `_remap_graph_for_branch`,
cueParse.py lines 107-129) -/

/-- `_map_uri_for_branch`: URIs under the SSV root, except the audio and vocab
sub-namespaces, get `branch.strip('/') + '/'` spliced in after the root. -/
def mapUriForBranch (u : Term) (branch : String) : Term :=
  match u with
  | .uri s =>
    if pyStartsWith s ssvBase then
      if pyStartsWith s (ssvBase ++ "audio/") ∨ pyStartsWith s (ssvBase ++ "vocab#") then u
      else .uri (ssvBase ++ pyStripSet branch ['/'] ++ "/" ++ (⟨s.data.drop ssvBase.data.length⟩ : String))
    else u
  | _ => u

def mapTripleForBranch (t : Triple) (branch : String) : Triple :=
  (mapUriForBranch t.1 branch, mapUriForBranch t.2.1 branch, mapUriForBranch t.2.2 branch)

/-- `_remap_graph_for_branch`: a fresh graph with every triple remapped. -/
def remapGraphForBranch (g : Graph) (branch : String) : Graph :=
  g.foldl (fun ng t => gadd ng (mapTripleForBranch t branch)) []

/-! ## Media-root resolution (`build_rdf_content`, cueParse.py lines 363-382) -/

/-- `root if root.endswith("/") else root + "/"` (lines 368-369 and 379). -/
def withSlash (s : String) : String := if pyEndsWith s "/" then s else s ++ "/"

/-- Root `q` is a path prefix of directory `fp` in the loop's sense
(`file_parent_slash.startswith(root_slash)`, line 370). -/
def pathIsPrefix (q fp : String) : Bool := pyStartsWith (withSlash fp) (withSlash q)

/-- `len(root_slash)`. -/
def slashLen (q : String) : Nat := (withSlash q).data.length

/-- The matching loop (lines 365-375): longest slash-terminated normalized
root that prefixes the document's parent directory; strict `>` keeps the first
among equals. `best_len` starts at `-1`. -/
def bestRootLoop (fileParent : String) :
    List String → Option String × Int → Option String × Int
  | [], acc => acc
  | root :: rest, acc =>
    if pathIsPrefix root fileParent ∧ (slashLen root : Int) > acc.2 then
      bestRootLoop fileParent rest (some root, (slashLen root : Int))
    else
      bestRootLoop fileParent rest acc

/-- Root selection with the fallback to the first root (lines 376-378).
`if not best_root:` is Python truthiness: both `None` (no candidate matched)
and the empty string (a candidate such as `/` that `normalize_path` reduced
to `''`) are discarded in favour of `normalized_roots[0]`, which raises
`IndexError` when the root list is empty. -/
def resolveRoot (normalizedRoots : List String) (fileParent : String) :
    Except Unit String :=
  match (bestRootLoop fileParent normalizedRoots (none, -1)).1 with
  | some r =>
    if r ≠ "" then .ok r
    else
      match normalizedRoots with
      | [] => .error ()
      | r0 :: _ => .ok r0
  | none =>
    match normalizedRoots with
    | [] => .error ()
    | r0 :: _ => .ok r0

/-- The URI path component derived from the matched root (lines 379-382). -/
def uriComponentFrom (bestRoot fileParent : String) : String :=
  let rootSlash := if pyEndsWith bestRoot "/" then bestRoot else bestRoot ++ "/"
  let relPath := ⟨fileParent.data.drop (pyRStripSet rootSlash ['/']).data.length⟩
  let relPath := pyLStripSet relPath ['/', '\\']
  pyReplace (pyReplace (pyReplace (pyQuote relPath) "/" "__") " " "_") "%" "_-"

/-- Parent-directory normalization plus root matching plus component
derivation for one document (lines 363-382). -/
def docComponent (normalizedRoots : List String) (filePath : String) :
    Except Unit (String × String) := do
  let fileParent := normalize_path (pathParent filePath)
  let best ← resolveRoot normalizedRoots fileParent
  pure (best, uriComponentFrom best fileParent)

/-! ## `_val_ok` and small helpers (cueParse.py lines 216-246) -/

/-- `_val_ok(v)`: present, non-blank after strip, and not the `'__NONE__'`
sentinel. -/
def val_ok : Option String → Bool
  | none => false
  | some s => pyStrip s ≠ "" ∧ s ≠ "__NONE__"

/-- Python `a or b` on optional strings (`''` and `None` are falsy). -/
def pyOrOpt (a b : Option String) : Option String :=
  match a with
  | some s => if s ≠ "" then some s else b
  | none => b

def isHexDigitChar (c : Char) : Bool :=
  c.isDigit || ('a' ≤ c && c ≤ 'f') || ('A' ≤ c && c ≤ 'F')

/-- `is_valid_uuid` via `uuid.UUID`: strip `urn:`/`uuid:`/braces/hyphens and
require 32 hex digits (the exotic `int(..., 16)` sign/underscore forms are out
of scope). -/
def is_valid_uuid (u : Option String) : Bool :=
  match u with
  | none => false
  | some s =>
    if s = "" then false
    else
      let h := pyReplace (pyReplace s "urn:" "") "uuid:" ""
      let h := pyReplace (pyStripSet h ['\x7b', '\x7d']) "-" ""
      h.data.length = 32 ∧ h.data.all isHexDigitChar

/-- `clean_mbid`. -/
def clean_mbid (raw : Option String) : Option String :=
  match raw with
  | none => none
  | some r =>
    if r = "" then none
    else
      let s := pyStripSet (pyStripSet (pyStrip r) ['"']) ['\'']
      if s = "" then none else some s

def isWordChar (c : Char) : Bool := c.isAlphanum || c = '_'

/-- Scan for `\b(\d{4})\b` (leftmost), ASCII model of `re.search`. -/
def findYear : Option Char → List Char → Option String
  | _, [] => none
  | prev, c :: rest =>
    if ((match prev with | some p => ! isWordChar p | none => true) &&
        ((c :: rest).take 4).length = 4 && ((c :: rest).take 4).all Char.isDigit &&
        (match (c :: rest).drop 4 with | [] => true | d :: _ => ! isWordChar d)) then
      some ⟨(c :: rest).take 4⟩
    else findYear (some c) rest

/-- `extract_year`. -/
def extract_year (dateStr : Option String) : Option String :=
  match dateStr with
  | none => none
  | some s =>
    if s = "" then none
    else
      match findYear none s.data with
      | none => none
      | some yr => if yr = "0000" then none else some yr

/-- `re.match(r"^\d{4}-\d{2}-\d{2}$", s)` (the full-date shape check of
line 458). -/
def fullDateShape (s : String) : Bool :=
  match s.data with
  | [a, b, c, d, h1, e, f, h2, g, i] =>
    a.isDigit && b.isDigit && c.isDigit && d.isDigit && h1 = '-' &&
    e.isDigit && f.isDigit && h2 = '-' && g.isDigit && i.isDigit
  | _ => false

/-! ## The MusicBrainz rate gate (`mb_get`, cueParse.py lines 24-51)

`mb_get` keeps a module-level `_MB_LAST_HIT`; for a musicbrainz.org host it
sleeps until `_MB_LAST_HIT + 1.0`, issues the request, and — only when
`requests.get` returns — stores the completion time (line 49).  When
`requests.get` raises, the exception propagates before line 49 runs, so the
gate keeps its previous value (every `mb_get` caller in `build_rdf_content`
catches and continues).  The program is single-threaded, so calls are
sequential: we model a run as a list of calls, each with a host, the
wall-clock time at which `mb_get` is entered, a (non-negative) request
duration, and whether `requests.get` returns (`ok`) or raises.  Time is
modelled by exact rationals. -/

structure MbCall where
  host : String
  arrival : ℚ
  dur : ℚ
  ok : Bool

/-- `host.endswith('musicbrainz.org')` (line 38). -/
def isMbHost (h : String) : Bool := pyEndsWith h "musicbrainz.org"

/-- The gated requests actually issued, each with its issue time and outcome:
`req = max(now, last + 1)` (the `sleep` of lines 40-42); afterwards
`_MB_LAST_HIT = time.time()` — the completion time `req + dur` — is stored
only if the request returned (line 49 is skipped on an exception).
Non-MusicBrainz calls bypass the gate and leave the state alone (line 51). -/
def mbTrace (last : ℚ) : List MbCall → List (ℚ × Bool)
  | [] => []
  | c :: rest =>
    if isMbHost c.host then
      let req := max c.arrival (last + 1)
      (req, c.ok) :: mbTrace (if c.ok then req + c.dur else last) rest
    else mbTrace last rest

/-! ## External (MusicBrainz) data shapes for the enrichment oracles -/

/-- One entry of a JSON-LD `recordingOf` list: `@id` may be absent (the
per-entry `try`/`except` of lines 566-577 skips those), `name` defaults
to `''`. -/
structure RecEntry where
  id : Option String
  name : String
deriving DecidableEq, Repr

/-- A track object of the release JSON-LD: `trackNumber` and `name` default
to `''`; `recordingOf` is `none` when the key is absent (a scalar value is
listified, line 565). -/
structure MbzTrackJson where
  trackNumber : String
  name : String
  recordingOf : Option (List RecEntry)
deriving DecidableEq, Repr

/-- The release JSON-LD: its `track` list (default `[]`). -/
structure MbzAlbumJson where
  track : List MbzTrackJson
deriving DecidableEq, Repr

/-- One WS/2 `label-info` entry. -/
structure WsLabelInfo where
  labelId : Option String
  labelName : Option String
  catalogNumber : Option String
deriving DecidableEq, Repr

/-- One WS/2 medium track: its `number` (as a string) and the contained
recording's `id`, if any. -/
structure WsTrack where
  number : String
  recordingId : Option String
deriving DecidableEq, Repr

structure WsMedium where
  tracks : List WsTrack
deriving DecidableEq, Repr

/-- The WS/2 release record: `date`, `label-info`, `media`. -/
structure WsRelease where
  date : Option String
  labelInfo : List WsLabelInfo
  media : List WsMedium
deriving DecidableEq, Repr

/-- A `work` object inside a WS/2 recording relation. -/
structure WsWork where
  id : Option String
  title : Option String
deriving DecidableEq, Repr

/-- The enrichment oracles: each field stands for one network interaction,
keyed by the identifier the source passes; `none` models absence, a fetch
failure, an HTTP error or malformed JSON (all are caught and logged). -/
structure Enrich where
  /-- JSON-LD release fetch by cleaned MBID (lines 396-408). -/
  albumJson : String → Option MbzAlbumJson
  /-- WS/2 release fetch (`inc=recordings labels`) by MBID (lines 410-423). -/
  wsRelease : String → Option WsRelease
  /-- WS/2 release re-fetch (`inc=recordings`) used only when the first WS/2
  fetch yielded nothing (lines 585-590). -/
  wsRecordings : String → Option WsRelease
  /-- WS/2 recording fetch (`inc=work-rels`) by recording id; the list holds
  the `relations`, `none` at a position meaning a relation without a `work`
  key (lines 604-623). -/
  recordingRels : String → Option (List (Option WsWork))

/-- The all-absent oracle: enrichment disabled / every fetch fails. -/
def enrichNone : Enrich := ⟨fun _ => none, fun _ => none, fun _ => none, fun _ => none⟩

/-! ## External-track matching and work resolution from the JSON-LD
(cueParse.py lines 549-579) -/

/-- `str(t.get('trackNumber','')).split('.')[-1]`. -/
def lastDotComponent (s : String) : String :=
  (pySplit s ".").getLastD ""

/-- The candidate filter of line 555: external tracks whose trailing
dot-component equals the local track number as a string. -/
def mbzCandidates (tracks : List MbzTrackJson) (trackNum : Nat) : List MbzTrackJson :=
  tracks.filter (fun t => lastDotComponent t.trackNumber = toString trackNum)

/-- The fuzzy disambiguation of lines 559-562: when more than one candidate
matched, keep those with `sim(name, local title) > 90`.  Reading the local
title raises `KeyError` when the track has none (line 560 indexes
`p[track_num]['title']` unconditionally). -/
def mbzDisambiguate (sim : String → String → Nat) (cands : List MbzTrackJson)
    (localTitle : Option String) : Except Unit (List MbzTrackJson) :=
  if cands.length > 1 then
    match localTitle with
    | none => .error ()
    | some lt => .ok (cands.filter (fun t => sim t.name lt > 90))
  else .ok cands

/-- Lines 563-577: a work is taken only when exactly one candidate remains
and it has a `recordingOf`; the first entry with an `@id` wins.  Returns the
work term (if any) and the `g.add` triples, in source order. -/
def workFromRecordingOf (cands : List MbzTrackJson) : Option Term × List Triple :=
  match cands with
  | [t] =>
    match t.recordingOf with
    | none => (none, [])
    | some recList =>
      let rec pick : List RecEntry → Option Term × List Triple
        | [] => (none, [])
        | r :: rs =>
          match r.id with
          | none => pick rs
          | some wid =>
            let work := Term.uri wid
            let adds :=
              [(work, Term.uri rdfType, Term.uri moMusicalWork)] ++
              (if r.name ≠ "" then
                [(work, Term.uri dctermsTitle, Term.lit r.name),
                 (work, Term.uri rdfsLabel, Term.lit ("Work: " ++ r.name))]
               else [])
            (some work, adds)
      pick recList
  | _ => (none, [])

/-- The complete JSON-LD work-resolution step for one track (lines 551-579):
filter by track number, disambiguate by fuzzy title similarity, and use the
single remaining candidate's `recordingOf`. -/
def workFromJsonLd (sim : String → String → Nat) (albumTracks : List MbzTrackJson)
    (trackNum : Nat) (localTitle : Option String) :
    Except Unit (Option Term × List Triple) := do
  let cands := mbzCandidates albumTracks trackNum
  let cands ← mbzDisambiguate sim cands localTitle
  pure (workFromRecordingOf cands)

/-! ## The entity-graph builder (`build_rdf_content`, cueParse.py lines 334-663) -/

/-- `len(p) - 1` for the parsed dict `p` (line 491): the dict holds the
`file_path` and `header` keys plus one key per track. -/
def pyLenParsedMinusOne (d : CueDoc) : Int := (2 + d.tracks.length : Int) - 1

/-- The builder's per-track loop state: the global and private graphs, the
per-document graphs mutated across iterations, the per-track
performance/performer graph snapshots, and the lazily fetched
`release_recordings_map`. -/
structure TrackState where
  g : Graph
  priv : Graph
  releaseG : Graph
  recordG : Graph
  trackG : Graph
  signalG : Graph
  perfs : List (Graph × Graph)
  recMap : Option (List (String × String))
deriving Repr

/-- `mbid_clean` for one document (lines 391-395). -/
def mbidCleanOf (d : CueDoc) : Option String :=
  match assocGet "mbz_album_id" d.header with
  | none => none
  | some raw =>
    match clean_mbid (some raw) with
    | none => none
    | some s => if ¬ is_valid_uuid (some s) then none else some s

/-- The RELEASE graph (lines 426-438). -/
def releaseGraphInit (release record : Term) (titleHdr catno mbidClean : Option String) :
    Graph :=
  let rg := gadd [] (release, Term.uri rdfType, Term.uri moRelease)
  let rg :=
    match titleHdr with
    | some t =>
      if val_ok (some t) then
        gadd (gadd rg (release, Term.uri dctermsTitle, Term.lit t))
          (release, Term.uri rdfsLabel, Term.lit ("Release: " ++ t))
      else rg
    | none => rg
  let rg :=
    match catno with
    | some c => if val_ok (some c) then
        gadd rg (release, Term.uri moCatalogueNumber, Term.lit c) else rg
    | none => rg
  let rg := gadd rg (release, Term.uri moRecordProp, record)
  match mbidClean with
  | some m => gadd rg (release, Term.uri moMusicbrainz, Term.uri (nsRELEASE ++ m))
  | none => rg

/-- `issued_date` (lines 451-455): the WS/2 `date` when truthy, else the
header `date`. -/
def issuedDateOf (wsJson : Option WsRelease) (d : CueDoc) : Option String :=
  let fromWs : Option String :=
    match wsJson with
    | some w => match w.date with
      | some dd => if dd ≠ "" then some dd else none
      | none => none
    | none => none
  match fromWs with
  | some x => some x
  | none => assocGet "date" d.header

/-- The RELEASE EVENT graph (lines 443-464); `timeNode` is the fresh
`BNode()` of line 447. -/
def releaseEventGraph (release releaseEvent timeNode : Term) (issued : Option String) :
    Graph :=
  let reg := gadd [] (releaseEvent, Term.uri rdfType, Term.uri moReleaseEvent)
  let reg := gadd reg (releaseEvent, Term.uri rdfType, Term.uri evEvent)
  let reg := gadd reg (releaseEvent, Term.uri moReleaseProp, release)
  let reg := gadd reg (releaseEvent, Term.uri evTime, timeNode)
  let reg := gadd reg (timeNode, Term.uri rdfType, Term.uri tlInstant)
  let reg :=
    match issued with
    | some v =>
      if val_ok (some v) then
        if fullDateShape v ∧ ¬ pyContainsSub v "-00-" ∧ ¬ pyEndsWith v "-00" then
          gadd reg (release, Term.uri dctermsIssued, Term.litTyped v xsdDate)
        else
          gadd reg (release, Term.uri dctermsIssued, Term.lit v)
      else reg
    | none => reg
  match extract_year issued with
  | some yr => gadd reg (timeNode, Term.uri tlAtYear, Term.litTyped yr xsdGYear)
  | none => reg

/-- One `label-info` entry of the labels/publishers section (lines 470-482). -/
def labelsStep (release : Term) (acc : Graph × Graph) (li : WsLabelInfo) :
    Graph × Graph :=
  let acc :=
    match li.labelId with
    | some lid =>
      if lid ≠ "" then
        let lbUri := Term.uri (nsLABEL ++ lid)
        let g := gadd acc.1 (lbUri, Term.uri rdfType, Term.uri foafOrganization)
        let g :=
          match li.labelName with
          | some nm => if val_ok (some nm) then gadd g (lbUri, Term.uri foafName, Term.lit nm) else g
          | none => g
        (g, gadd acc.2 (release, Term.uri dctermsPublisher, lbUri))
      else acc
    | none => acc
  match li.catalogNumber with
  | some c2 =>
    if val_ok (some c2) then (acc.1, gadd acc.2 (release, Term.uri moCatalogueNumber, Term.lit c2))
    else acc
  | none => acc

/-- The labels/publishers section (lines 469-482): threads `(g, releaseGraph)`. -/
def labelsFold (release : Term) (wsJson : Option WsRelease) (g rg : Graph) :
    Graph × Graph :=
  match wsJson with
  | none => (g, rg)
  | some ws => ws.labelInfo.foldl (labelsStep release) (g, rg)

/-- The RECORD graph before the track loop (lines 488-493), including the
`mo:track_count` literal `len(p) - 1` of line 491. -/
def recordGraphInit (record : Term) (titleHdr mbidClean : Option String) (d : CueDoc) :
    Graph :=
  let rg := gadd [] (record, Term.uri rdfType, Term.uri moRecord)
  let rg :=
    match titleHdr with
    | some t =>
      if val_ok (some t) then gadd rg (record, Term.uri rdfsLabel, Term.lit ("Record: " ++ t))
      else rg
    | none => rg
  let rg := gadd rg (record, Term.uri moTrackCount, Term.litInt (pyLenParsedMinusOne d))
  match mbidClean with
  | some m => gadd rg (record, Term.uri moMusicbrainz, Term.uri (nsRELEASE ++ m))
  | none => rg

/-- `release_recordings_map` construction (lines 591-598). -/
def buildRecMap (dd : WsRelease) : List (String × String) :=
  dd.media.foldl
    (fun mp medium =>
      medium.tracks.foldl
        (fun mp tr =>
          let num := lastDotComponent tr.number
          match tr.recordingId with
          | some rid => if num ≠ "" ∧ rid ≠ "" then assocSet num rid mp else mp
          | none => mp)
        mp)
    []

/-- Scan WS/2 recording relations for the first one with a `work` carrying an
`id` (lines 609-621); relations without a work or without an id are passed
over without breaking. -/
def scanWorkRels : List (Option WsWork) → Option Term × List Triple
  | [] => (none, [])
  | none :: rest => scanWorkRels rest
  | some w :: rest =>
    match w.id with
    | none => scanWorkRels rest
    | some wid =>
      let wUri := Term.uri ("https://musicbrainz.org/work/" ++ wid)
      let adds :=
        [(wUri, Term.uri rdfType, Term.uri moMusicalWork)] ++
        (match w.title with
         | some t =>
           if t ≠ "" then
             [(wUri, Term.uri dctermsTitle, Term.lit t),
              (wUri, Term.uri rdfsLabel, Term.lit ("Work: " ++ t))]
           else []
         | none => [])
      (some wUri, adds)

/-- The WS/2 fallback work resolution for one track (lines 582-623): build the
recordings map lazily (caching it in the loop state), look up the recording
for this track number, and fetch its work relations. -/
def wsFallbackWork (enr : Enrich) (mbid : String) (wsJson : Option WsRelease)
    (recMap : Option (List (String × String))) (trackNum : Nat) :
    Option Term × List Triple × Option (List (String × String)) :=
  let theMap : List (String × String) :=
    match recMap with
    | some mp => mp
    | none =>
      match wsJson with
      | some w => buildRecMap w
      | none =>
        match enr.wsRecordings mbid with
        | some dd => buildRecMap dd
        | none => []          -- fetch failed: `release_recordings_map = {}`
  let recId := assocGet (toString trackNum) theMap
  match recId with
  | some rid =>
    match enr.recordingRels rid with
    | some rels =>
      let (w, adds) := scanWorkRels rels
      (w, adds, some theMap)
    | none => (none, [], some theMap)
  | none => (none, [], some theMap)

/-- The SIGNAL section of the loop body (lines 508-529): updates the signal
graph and yields the audio URI (the falsy empty `audio_uri` of line 506 is
modelled as `none`). -/
def signalSection (fsExists : String → Bool) (peaksRoot : Option String)
    (docFilePath comp : String) (signal track : Term) (n : Nat) (fields : Fields)
    (g0 : Graph) : Graph × Option Term :=
  let sa : Graph × Option Term :=
    match assocGet "file" fields with
    | some f =>
      if f ≠ "__SKIP__" then
        let audioPath :=
          pyStrip (osJoin (pathParent docFilePath) (pathName (pyReplace f "\\" "/")))
        if fsExists audioPath ∧ peaksRoot.isSome then
          (gadd g0
             (signal, Term.uri ssvoPeaks,
              Term.uri (nsSSVPeaks ++ comp ++ "/" ++ toString n ++ ".peaks.json")),
           some (Term.uri (nsSSVAudio ++ comp ++ "/" ++ pyQuote (pathName audioPath))))
        else (g0, none)
      else (g0, none)
    | none => (g0, none)
  let signalG := gadd sa.1 (signal, Term.uri rdfType, Term.uri moSignal)
  let signalG := gadd signalG (signal, Term.uri moPublishedAs, track)
  let signalG :=
    match assocGet "isrc" fields with
    | some i => gadd signalG (signal, Term.uri moIsrc, Term.uri (nsISRC ++ i))
    | none => signalG
  (signalG, sa.2)

/-- The TRACK section (lines 532-547): updates the track graph and the
private graph. -/
def trackSection (track : Term) (n : Nat) (fields : Fields) (audioUri : Option Term)
    (trackG0 priv0 : Graph) : Graph × Graph :=
  let trackG := gadd trackG0 (track, Term.uri rdfType, Term.uri moTrack)
  let priv := gadd priv0 (track, Term.uri rdfType, Term.uri moTrack)
  let tp : Graph × Graph :=
    match assocGet "mbz_track" fields with
    | some mt =>
      let mid := pyStrip (pyReplace mt "\"" "")
      (gadd trackG (track, Term.uri moMusicbrainz, Term.uri (nsTRACK ++ mid)),
       gadd priv (track, Term.uri moMusicbrainz, Term.uri (nsTRACK ++ mid)))
    | none => (trackG, priv)
  let trackG := gadd tp.1 (track, Term.uri moTrackNumber, Term.litInt (n : Int))
  let priv := gadd tp.2 (track, Term.uri moTrackNumber, Term.litInt (n : Int))
  let tp2 : Graph × Graph :=
    match assocGet "title" fields with
    | some t =>
      if val_ok (some t) then
        (gadd trackG (track, Term.uri rdfsLabel, Term.lit ("Track: " ++ t)),
         gadd priv (track, Term.uri rdfsLabel, Term.lit ("Track: " ++ t)))
      else (trackG, priv)
    | none => (trackG, priv)
  let trackG := tp2.1
  let priv := tp2.2
  let priv :=
    match assocGet "file" fields with
    | some lp =>
      if val_ok (some lp) then gadd priv (track, Term.uri ssvoLocalPath, Term.lit lp)
      else priv
    | none => priv
  let trackG :=
    match audioUri with
    | some a => gadd trackG (track, Term.uri moAvailableAs, a)
    | none => trackG
  (trackG, priv)

/-- The full work resolution for one track (lines 549-623): the JSON-LD path
first, then the WS/2 fallback.  Returns the optional work term, the triples
to `g.add`, and the updated recordings-map cache. -/
def workStep (sim : String → String → Nat) (enr : Enrich) (mbidClean : Option String)
    (albumJson : Option MbzAlbumJson) (wsJson : Option WsRelease)
    (recMap : Option (List (String × String))) (n : Nat) (title : Option String) :
    Except Unit (Option Term × List Triple × Option (List (String × String))) := do
  let wj : Option Term × List Triple ←
    match albumJson with
    | some aj => workFromJsonLd sim aj.track n title
    | none => pure (none, [])
  match wj.1 with
  | some w => pure (some w, wj.2, recMap)
  | none =>
    match mbidClean with
    | some m =>
      let fb := wsFallbackWork enr m wsJson recMap n
      pure (fb.1, wj.2 ++ fb.2.1, fb.2.2)
    | none => pure (none, wj.2, recMap)

/-- The PERFORMANCE section (lines 626-632). -/
def performanceSection (performance signal : Term) (work : Option Term)
    (title : Option String) : Graph :=
  let perfG := gadd [] (performance, Term.uri rdfType, Term.uri moPerformance)
  let perfG := gadd perfG (performance, Term.uri moRecordedAs, signal)
  let perfG :=
    match work with
    | some w => gadd perfG (performance, Term.uri moPerformanceOf, w)
    | none => perfG
  match title with
  | some t =>
    if val_ok (some t) then
      gadd perfG (performance, Term.uri rdfsLabel, Term.lit ("Performance: " ++ t))
    else perfG
  | none => perfG

/-- The PERFORMER section (lines 635-645). -/
def performerSection (performer performance : Term) (fields : Fields) : Graph :=
  let prG := gadd [] (performer, Term.uri rdfType, Term.uri moMusicArtist)
  let prG := gadd prG (performer, Term.uri moPerformed, performance)
  let prG :=
    match assocGet "performer" fields with
    | some pn =>
      if val_ok (some pn) then
        gadd (gadd prG (performer, Term.uri foafName, Term.lit pn))
          (performer, Term.uri rdfsLabel, Term.lit ("Performer: " ++ pn))
      else prG
    | none => prG
  match assocGet "mbz_artist" fields with
  | some ma =>
    (pySplit ma "; ").foldl
      (fun acc aid =>
        gadd acc (performer, Term.uri moMusicbrainz, Term.uri (nsARTIST ++ pyReplace aid "\"" "")))
      prG
  | none => prG

/-- One iteration of the per-track loop (lines 495-661). -/
def trackStep (sim : String → String → Nat) (enr : Enrich) (fsExists : String → Bool)
    (peaksRoot : Option String) (docFilePath comp : String)
    (release record : Term) (mbidClean : Option String)
    (albumJson : Option MbzAlbumJson) (wsJson : Option WsRelease)
    (releaseEventG : Graph) (st : TrackState) (entry : Nat × Fields) :
    Except Unit TrackState := do
  let n := entry.1
  let fields := entry.2
  let tix := comp ++ "#" ++ toString n
  let track := Term.uri (nsSSVTrack ++ tix)
  let signal := Term.uri (nsSSVSignal ++ tix)
  let performance := Term.uri (nsSSVPerformance ++ tix)
  let performer := Term.uri (nsSSVPerformer ++ tix)
  let recordG := gadd st.recordG (record, Term.uri moTrackProp, track)
  let releaseG := gadd st.releaseG (release, Term.uri moPublicationOf, signal)
  let sa := signalSection fsExists peaksRoot docFilePath comp signal track n fields st.signalG
  let tp := trackSection track n fields sa.2 st.trackG st.priv
  let ws ← workStep sim enr mbidClean albumJson wsJson st.recMap n (assocGet "title" fields)
  let g := ws.2.1.foldl gadd st.g
  let perfG := performanceSection performance signal ws.1 (assocGet "title" fields)
  let prG := performerSection performer performance fields
  -- merge into the global graph (lines 655-661)
  let g := gunion g releaseG
  let g := gunion g releaseEventG
  let g := gunion g recordG
  let g := gunion g tp.1
  let g := gunion g sa.1
  let g := gunion g perfG
  let g := gunion g prG
  pure ⟨g, tp.2, releaseG, recordG, tp.1, sa.1, st.perfs ++ [(perfG, prG)], ws.2.2⟩

/-- The builder's output: the full graph, the private graph, and the seven
per-entity-type collections of `(graph, ssvUriComponent)` pairs.  In the
source the per-document graphs are appended by reference and mutated
afterwards, so each collected entry holds the document's final graph (once
per track for record/track/signal, once per document for
release/release-event). -/
structure BuildOut where
  g : Graph
  priv : Graph
  locRelease : List (Graph × String)
  locReleaseEvent : List (Graph × String)
  locRecord : List (Graph × String)
  locTrack : List (Graph × String)
  locSignal : List (Graph × String)
  locPerformance : List (Graph × String)
  locPerformer : List (Graph × String)
deriving Repr

def emptyBuildOut : BuildOut := ⟨[], [], [], [], [], [], [], [], []⟩

/-- Run the track loop over the document's tracks. -/
def trackFold (sim : String → String → Nat) (enr : Enrich) (fsExists : String → Bool)
    (peaksRoot : Option String) (docFilePath comp : String)
    (release record : Term) (mbidClean : Option String)
    (albumJson : Option MbzAlbumJson) (wsJson : Option WsRelease)
    (releaseEventG : Graph) :
    TrackState → List (Nat × Fields) → Except Unit TrackState
  | st, [] => .ok st
  | st, e :: es =>
    match trackStep sim enr fsExists peaksRoot docFilePath comp release record
        mbidClean albumJson wsJson releaseEventG st e with
    | .error err => .error err
    | .ok st' =>
      trackFold sim enr fsExists peaksRoot docFilePath comp release record
        mbidClean albumJson wsJson releaseEventG st' es

/-- Process one document (the body of the `for p in parsed` loop,
lines 363-661).  `bnodeId` is the label of this document's fresh `BNode()`. -/
def processDoc (normalizedRoots : List String) (sim : String → String → Nat)
    (enr : Enrich) (fsExists : String → Bool) (peaksRoot : Option String)
    (bnodeId : Nat) (acc : BuildOut) (d : CueDoc) : Except Unit BuildOut := do
  let rc ← docComponent normalizedRoots d.filePath
  let comp := rc.2
  let release := Term.uri (nsSSVRelease ++ comp)
  let releaseEvent := Term.uri (nsSSVReleaseEvent ++ comp)
  let record := Term.uri (nsSSVRecord ++ comp)
  let mbidClean := mbidCleanOf d
  let albumJson := mbidClean.bind enr.albumJson
  let wsJson := mbidClean.bind enr.wsRelease
  let titleHdr := assocGet "title" d.header
  let catno := pyOrOpt (assocGet "catalog" d.header) (assocGet "cddbcat" d.header)
  let releaseG := releaseGraphInit release record titleHdr catno mbidClean
  let g := gunion acc.g releaseG                                   -- line 439
  let releaseEventG :=
    releaseEventGraph release releaseEvent (Term.bnode bnodeId) (issuedDateOf wsJson d)
  let g := gunion g releaseEventG                                  -- line 465
  let glr := labelsFold release wsJson g releaseG                  -- lines 469-482
  let g := glr.1
  let releaseG := glr.2
  let recordG := recordGraphInit record titleHdr mbidClean d
  let fin ← trackFold sim enr fsExists peaksRoot d.filePath comp release record
      mbidClean albumJson wsJson releaseEventG
      ⟨g, acc.priv, releaseG, recordG, [], [], [], none⟩ d.tracks
  let n := d.tracks.length
  pure
    { g := fin.g
      priv := fin.priv
      locRelease := acc.locRelease ++ [(fin.releaseG, comp)]
      locReleaseEvent := acc.locReleaseEvent ++ [(releaseEventG, comp)]
      locRecord := acc.locRecord ++ List.replicate n (fin.recordG, comp)
      locTrack := acc.locTrack ++ List.replicate n (fin.trackG, comp)
      locSignal := acc.locSignal ++ List.replicate n (fin.signalG, comp)
      locPerformance := acc.locPerformance ++ fin.perfs.map (fun pq => (pq.1, comp))
      locPerformer := acc.locPerformer ++ fin.perfs.map (fun pq => (pq.2, comp)) }

/-- Fold over the documents; the `k`-th document gets blank-node label
`seed + k`. -/
def docsFold (normalizedRoots : List String) (sim : String → String → Nat)
    (enr : Enrich) (fsExists : String → Bool) (peaksRoot : Option String) :
    Nat → BuildOut → List CueDoc → Except Unit BuildOut
  | _, acc, [] => .ok acc
  | k, acc, d :: ds =>
    match processDoc normalizedRoots sim enr fsExists peaksRoot k acc d with
    | .error e => .error e
    | .ok acc' => docsFold normalizedRoots sim enr fsExists peaksRoot (k + 1) acc' ds

/-- `build_rdf_content(parsed, media_root_paths, peaks_root_dir)`, with the
similarity metric, network and filesystem passed as oracles and the rdflib
blank-node generator as a label seed. -/
def build_rdf_content (docs : List CueDoc) (mediaRoots : List String)
    (sim : String → String → Nat) (enr : Enrich) (fsExists : String → Bool)
    (peaksRoot : Option String) (bnodeSeed : Nat) : Except Unit BuildOut :=
  docsFold (mediaRoots.map normalize_path) sim enr fsExists peaksRoot
    bnodeSeed emptyBuildOut docs

/-! ## Auxiliary predicates used by the statements -/

/-- Parser well-formedness: an open `current_track` always has its entry in
the tracks dict (the parser establishes this at every track opening). -/
def WfState (st : ParseState) : Prop :=
  ∀ n, st.currentTrack = some n → st.tracks.any (fun p => p.1 = n) = true

/-- The routing condition of line 262. -/
def headerRoute (st : ParseState) (line : String) : Bool :=
  (st.currentTrack == none) && ! pyStartsWith line "FILE" && ! pyStartsWith line "TRACK"

/-- A (stripped) line that matches none of the recognized patterns of the
branch the parser routes it to. -/
def unmatchedStripped (st : ParseState) (line : String) : Bool :=
  if headerRoute st line then
    (capAfter "REM MUSICBRAINZ_ALBUM_ARTIST_ID " line).isNone &&
    (capAfter "REM MUSICBRAINZ_ALBUM_ID " line).isNone &&
    (remGeneric line).isNone &&
    (capAfter "CATALOG " line).isNone &&
    (capAfter "TITLE " line).isNone &&
    (capAfter "PERFORMER " line).isNone &&
    (trackMatch line).isNone
  else
    (capAfterSp "TITLE " line).isNone &&
    (capAfterSp "REM MUSICBRAINZ_TRACK_ID " line).isNone &&
    (capAfterSp "REM MUSICBRAINZ_ARTIST_ID " line).isNone &&
    (capAfterSp "PERFORMER " line).isNone &&
    (capAfterSp "ISRC " line).isNone &&
    (capAfterSp "PREGAP " line).isNone &&
    (capAfterSp "INDEX 01 " line).isNone &&
    (trackMatch line).isNone &&
    (fileMatch line).isNone

/-- A raw line that matches none of the recognized patterns of the branch the
parser routes it to. -/
def unmatchedLine (st : ParseState) (rawLine : String) : Bool :=
  unmatchedStripped st (pyStrip rawLine)

/-- The track numbers opened by `TRACK` lines in a run of input lines. -/
def trackLineNums (lines : List String) : List Nat :=
  lines.filterMap (fun l => trackMatch (pyStrip l))

/-- Whether a raw line is a `FILE "..." WAVE` declaration. -/
def isFileLine (l : String) : Bool := (fileMatch (pyStrip l)).isSome

/-- A term the branch rewriter would rewrite: a URI under the SSV root but
not under the audio or vocab sub-namespaces. -/
def branchableTerm (t : Term) : Bool :=
  match t with
  | .uri s =>
    pyStartsWith s ssvBase &&
    ! (pyStartsWith s (ssvBase ++ "audio/") || pyStartsWith s (ssvBase ++ "vocab#"))
  | _ => false

def branchableTriple (t : Triple) : Bool :=
  branchableTerm t.1 || branchableTerm t.2.1 || branchableTerm t.2.2

/-- A stand-in similarity metric for the closed counterexamples: it agrees
with `fuzz.ratio` on their inputs (any backend scores equal strings 100). -/
def simExact : String → String → Nat := fun a b => if a = b then 100 else 0

/-- A triple contains no blank node. -/
def bnodeFree (t : Triple) : Bool :=
  (match t.1 with | .bnode _ => false | _ => true) &&
  (match t.2.1 with | .bnode _ => false | _ => true) &&
  (match t.2.2 with | .bnode _ => false | _ => true)

/-- The blank-node-free part of a graph. -/
def gclean (g : Graph) : Graph := g.filter bnodeFree

/-- The identifier components of a build: the `ssvUriComponent` attached to
each per-entity collection entry (one per document on the release list). -/
def componentsOf (out : BuildOut) : List String := out.locRelease.map (fun pq => pq.2)

/-- Two build outputs that agree except for blank-node identity: equal
private graphs, equal per-entity collections (the release-event graphs,
which contain the per-run fresh time blank node, compared on their
blank-node-free parts), and equal blank-node-free global graphs. -/
def agreeModBnodes (o1 o2 : BuildOut) : Prop :=
  gclean o1.g = gclean o2.g ∧ o1.priv = o2.priv ∧
  o1.locRelease = o2.locRelease ∧
  o1.locReleaseEvent.map (fun pq => (gclean pq.1, pq.2)) =
    o2.locReleaseEvent.map (fun pq => (gclean pq.1, pq.2)) ∧
  o1.locRecord = o2.locRecord ∧ o1.locTrack = o2.locTrack ∧
  o1.locSignal = o2.locSignal ∧ o1.locPerformance = o2.locPerformance ∧
  o1.locPerformer = o2.locPerformer

/-- Relational lifting to `Except` results: related successes or joint
failure. -/
def exceptRel {α β : Type} (R : α → β → Prop) : Except Unit α → Except Unit β → Prop
  | .ok a, .ok b => R a b
  | .error _, .error _ => True
  | _, _ => False

/-- Two build results that agree except for blank-node identity (and fail
together). -/
def buildsAgreeModBnodes : Except Unit BuildOut → Except Unit BuildOut → Prop :=
  exceptRel agreeModBnodes

/-- Track-loop states that agree except for blank-node identity in the
global graph. -/
def tsAgree (st1 st2 : TrackState) : Prop :=
  gclean st1.g = gclean st2.g ∧ st1.priv = st2.priv ∧ st1.releaseG = st2.releaseG ∧
  st1.recordG = st2.recordG ∧ st1.trackG = st2.trackG ∧ st1.signalG = st2.signalG ∧
  st1.perfs = st2.perfs ∧ st1.recMap = st2.recMap

/-- Validity of the object emitted under a given predicate, for the
`_val_ok`-guarded fields: every title, name, catalogue-number and local-path
object is a `_val_ok` literal; every issued-date object is a (possibly
date-typed) `_val_ok` literal; every label literal is one of the five
prefixed label forms over a `_val_ok` value. -/
def goodObj (p : String) (obj : Term) : Bool :=
  if p = dctermsTitle ∨ p = foafName ∨ p = moCatalogueNumber ∨ p = ssvoLocalPath then
    match obj with | .lit v => val_ok (some v) | _ => false
  else if p = dctermsIssued then
    match obj with
    | .lit v => val_ok (some v)
    | .litTyped v dt => dt = xsdDate && val_ok (some v)
    | _ => false
  else if p = rdfsLabel then
    match obj with
    | .lit v =>
      ["Release: ", "Record: ", "Track: ", "Performance: ", "Performer: "].any
        (fun pre => pre.data.isPrefixOf v.data && val_ok (some ⟨v.data.drop pre.data.length⟩))
    | _ => false
  else true

/-- A triple whose object is valid for its predicate. -/
def goodTriple (t : Triple) : Bool :=
  match t.2.1 with
  | .uri p => goodObj p t.2.2
  | _ => true

def goodGraph (g : Graph) : Prop := ∀ t ∈ g, goodTriple t = true

/-! ## Concrete inputs for the closed theorems -/

/-- The two-track document of the spec's worked example (as parsed: header
`TITLE`/`PERFORMER`, two tracks with `TITLE`, `PERFORMER`, `ISRC`, a bound
file). -/
def twoTrackDoc : CueDoc :=
  { filePath := "/music/a/x.cue"
    header := [("title", "Test Album"), ("performer", "Test Artist")]
    mbzArtistList := none
    tracks :=
      [(1, [("file", "track01.wav"), ("title", "Song One"),
            ("performer", "Artist One"), ("isrc", "AA1234567890")]),
       (2, [("file", "track01.wav"), ("title", "Song Two"),
            ("performer", "Artist Two"), ("isrc", "AA1234567891")])] }

/-- A one-track document whose ISRC is the `'__NONE__'` sentinel. -/
def sentinelIsrcDoc : CueDoc :=
  { filePath := "/music/a/x.cue"
    header := [("title", "Test Album")]
    mbzArtistList := none
    tracks := [(1, [("title", "Song One"), ("isrc", "__NONE__")])] }

/-- A one-triple graph over a branchable SSV URI. -/
def ssvExampleGraph : Graph :=
  [(Term.uri (ssvBase ++ "data/release/a"), Term.uri rdfType, Term.uri moRelease)]

/-- Two external JSON-LD tracks whose trailing track-number component is `1`
and whose names both equal the local title (multi-disc numbering collision). -/
def extTrackA : MbzTrackJson :=
  ⟨"1", "Sonata", some [⟨some "https://musicbrainz.org/work/w1", "Sonata"⟩]⟩
def extTrackB : MbzTrackJson :=
  ⟨"2.1", "Sonata", some [⟨some "https://musicbrainz.org/work/w2", "Sonata"⟩]⟩

/-! # Theorems -/

/-! ## Graph lemmas -/

theorem mem_gadd {g : Graph} {t x : Triple} : t ∈ gadd g x ↔ t ∈ g ∨ t = x := by
  unfold gadd
  split
  · rename_i hx
    constructor
    · exact Or.inl
    · rintro (h | rfl)
      · exact h
      · exact hx
  · simp

theorem mem_gunion {t : Triple} : ∀ {h g : Graph}, t ∈ gunion g h ↔ t ∈ g ∨ t ∈ h := by
  intro h
  induction h with
  | nil => simp [gunion]
  | cons x xs ih =>
    intro g
    show t ∈ gunion (gadd g x) xs ↔ _
    rw [ih, mem_gadd]
    simp only [List.mem_cons]
    tauto

theorem mem_foldl_gadd {t : Triple} :
    ∀ {adds : List Triple} {g : Graph}, t ∈ adds.foldl gadd g ↔ t ∈ g ∨ t ∈ adds :=
  mem_gunion

theorem gadd_of_disjoint {g : Graph} {x : Triple} (h : x ∉ g) :
    gadd g x = g ++ [x] := by
  unfold gadd
  simp [h]

/-- Re-adding a duplicate-free list of triples to a graph disjoint from it
appends them. -/
theorem foldl_gadd_of_nodup :
    ∀ (h : List Triple) (g : Graph), (g ++ h).Nodup → h.foldl gadd g = g ++ h := by
  intro h
  induction h with
  | nil => simp [gunion]
  | cons x xs ih =>
    intro g hnd
    have hx : x ∉ g := by
      intro hmem
      have h1 : (g ++ x :: xs).Nodup := hnd
      rw [List.nodup_append] at h1
      exact h1.2.2 hmem (List.mem_cons_self x xs)
    show List.foldl gadd (gadd g x) xs = g ++ x :: xs
    rw [gadd_of_disjoint hx]
    have : (g ++ [x]) ++ xs = g ++ x :: xs := by simp
    rw [← this]
    apply ih
    simpa using hnd

/-! ## Claim C1 — `mo:track_count` (corrected off-by-one: code bug)

`build_rdf_content` emits `Literal(len(p)-1)` (line 491); the parsed dict `p`
holds the two metadata keys `file_path` and `header` plus one key per track,
so a two-track document gets `track_count = 3`, not `2` as the spec states. -/

/-- Claim C1 (code bug): on the spec's own two-track example document, the
single `mo:track_count` triple emitted on the Record entity carries the
literal 3, although the document has exactly 2 track entries: the code
subtracts only one of the two metadata keys of the parsed dict. -/
theorem track_count_is_three_on_two_track_doc :
    twoTrackDoc.tracks.length = 2 ∧
    (build_rdf_content [twoTrackDoc] ["/music"] simExact enrichNone
        (fun _ => false) none 0).toOption.map
      (fun out => out.g.filter (fun t => t.2.1 = Term.uri moTrackCount)) =
      some [(Term.uri (nsSSVRecord ++ "a"), Term.uri moTrackCount, Term.litInt 3)] ∧
    (3 : Int) ≠ 2 := by
  refine ⟨rfl, ?_, by decide⟩
  set_option maxRecDepth 100000 in decide

/-! ## String lemmas -/

theorem stringMk_data (s : String) : (⟨s.data⟩ : String) = s := by
  cases s
  rfl

theorem stringData_append (a b : String) : (a ++ b).data = a.data ++ b.data := by
  cases a
  cases b
  rfl

theorem pyStartsWith_iff {s p : String} : pyStartsWith s p = true ↔ p.data <+: s.data := by
  unfold pyStartsWith
  exact List.isPrefixOf_iff_prefix

theorem pyStartsWith_append (a b : String) : pyStartsWith (a ++ b) a = true := by
  rw [pyStartsWith_iff, stringData_append]
  exact List.prefix_append _ _

theorem pyStartsWith_append_right {a b c : String} :
    pyStartsWith (a ++ b) (a ++ c) = pyStartsWith b c := by
  unfold pyStartsWith
  rw [stringData_append, stringData_append]
  rcases hbc : c.data.isPrefixOf b.data with _ | _
  · rcases h : (a.data ++ c.data).isPrefixOf (a.data ++ b.data) with _ | _
    · rfl
    · exfalso
      have := List.isPrefixOf_iff_prefix.mp h
      rw [List.prefix_append_right_inj] at this
      rw [← List.isPrefixOf_iff_prefix, hbc] at this
      exact Bool.false_ne_true this
  · rw [List.isPrefixOf_iff_prefix, List.prefix_append_right_inj,
      ← List.isPrefixOf_iff_prefix]
    exact hbc

theorem string_drop_append (a b : String) :
    (⟨(a ++ b).data.drop a.data.length⟩ : String) = b := by
  rw [stringData_append, List.drop_left, stringMk_data]

/-! ## Claim C2 — rebase with an empty branch name (corrected)

`_map_uri_for_branch(u, "")` returns `base + "".strip("/") + "/" + rest`
for every branchable URI `base + rest`, i.e. it inserts an *empty* path
segment (a double slash) instead of leaving the URI alone, so
`rebase(g, "") == g` fails on any graph holding a branchable SSV URI.  (With
the branch *absent*, `__main__` never calls the rewriter, so the output is
trivially the unbranched graph.) -/

/-- Claim C2 counterexample: a graph holding one branchable SSV URI is
changed by the empty-branch rebase. -/
theorem rebase_empty_branch_not_identity :
    remapGraphForBranch ssvExampleGraph "" ≠ ssvExampleGraph := by decide

/-- Claim C2 (amended): with an empty branch name the rebase rewrites every
branchable URI `root ++ rest` to `root ++ "/" ++ rest` — inserting an empty
path segment — and is the identity precisely on (duplicate-free) graphs none
of whose terms is a branchable SSV URI. -/
theorem rebase_empty_branch_characterized :
    (∀ s : String, pyStartsWith s ssvBase = true →
      pyStartsWith s (ssvBase ++ "audio/") = false →
      pyStartsWith s (ssvBase ++ "vocab#") = false →
      mapUriForBranch (.uri s) "" =
        .uri (ssvBase ++ "" ++ "/" ++ (⟨s.data.drop ssvBase.data.length⟩ : String))) ∧
    (∀ g : Graph, g.Nodup → (∀ t ∈ g, branchableTriple t = false) →
      remapGraphForBranch g "" = g) := by
  constructor
  · intro s h1 h2 h3
    simp only [mapUriForBranch, h1, h2, h3]
    rfl
  · intro g hnd hb
    have hmap : ∀ t ∈ g, mapTripleForBranch t "" = t := by
      intro t ht
      have hbt := hb t ht
      unfold branchableTriple at hbt
      simp only [Bool.or_eq_false_iff] at hbt
      obtain ⟨⟨b1, b2⟩, b3⟩ := hbt
      have hid : ∀ u : Term, branchableTerm u = false → mapUriForBranch u "" = u := by
        intro u hu
        cases u with
        | uri s =>
          unfold branchableTerm at hu
          simp only [Bool.and_eq_false_iff] at hu
          unfold mapUriForBranch
          rcases hu with hu | hu
          · simp [hu]
          · simp only [Bool.not_eq_false', Bool.or_eq_true_iff] at hu
            rcases h : pyStartsWith s ssvBase with _ | _
            · simp [h]
            · simp only [h, if_true]
              rcases hu with hu | hu <;> simp [hu]
        | lit s => rfl
        | litTyped s dt => rfl
        | litInt n => rfl
        | bnode n => rfl
      unfold mapTripleForBranch
      rw [hid _ b1, hid _ b2, hid _ b3]
    unfold remapGraphForBranch
    have : ∀ (l : Graph) (acc : Graph), (∀ t ∈ l, mapTripleForBranch t "" = t) →
        l.foldl (fun ng t => gadd ng (mapTripleForBranch t "")) acc = l.foldl gadd acc := by
      intro l
      induction l with
      | nil => intro acc _; rfl
      | cons x xs ih =>
        intro acc hall
        simp only [List.foldl_cons]
        rw [hall x (List.mem_cons_self x xs), ih _ (fun t ht => hall t (List.mem_cons_of_mem x ht))]
    rw [this g [] hmap]
    have := foldl_gadd_of_nodup g []
    simp only [List.nil_append] at this
    exact this hnd

/-- Witness for the amended C2 theorem at concrete inputs. -/
theorem rebase_empty_branch_characterized_witness :
    mapUriForBranch (.uri (ssvBase ++ "data/release/a")) "" =
      .uri (ssvBase ++ "" ++ "/" ++
        (⟨(ssvBase ++ "data/release/a").data.drop ssvBase.data.length⟩ : String)) ∧
    remapGraphForBranch
        [(Term.uri "http://example.org/x", Term.uri rdfType, Term.lit "y")] "" =
      [(Term.uri "http://example.org/x", Term.uri rdfType, Term.lit "y")] :=
  ⟨rebase_empty_branch_characterized.1 _ (by decide) (by decide) (by decide),
   rebase_empty_branch_characterized.2 _ (by decide) (by decide)⟩

/-! ## Claim C7 — branch-invariant sub-namespaces (confirmed) -/

/-- Claim C7: for every branch name, the rebase never rewrites URIs under the
audio or vocab sub-namespaces; every other URI under the SSV root gets the
(slash-stripped) branch name inserted immediately after the root — for a
branch name that is already a clean path segment, the name itself; and all
literal, typed-literal, integer-literal and blank-node terms, and URIs
outside the root, pass through unchanged, both termwise and graphwise. -/
theorem branch_invariant_namespaces :
    ∀ b : String,
      (∀ r : String,
        mapUriForBranch (.uri (ssvBase ++ "audio/" ++ r)) b = .uri (ssvBase ++ "audio/" ++ r)) ∧
      (∀ r : String,
        mapUriForBranch (.uri (ssvBase ++ "vocab#" ++ r)) b = .uri (ssvBase ++ "vocab#" ++ r)) ∧
      (∀ s : String, pyStartsWith s ssvBase = false → mapUriForBranch (.uri s) b = .uri s) ∧
      (∀ s, mapUriForBranch (.lit s) b = .lit s) ∧
      (∀ s dt, mapUriForBranch (.litTyped s dt) b = .litTyped s dt) ∧
      (∀ n, mapUriForBranch (.litInt n) b = .litInt n) ∧
      (∀ n, mapUriForBranch (.bnode n) b = .bnode n) ∧
      (∀ suffix : String, pyStartsWith suffix "audio/" = false →
        pyStartsWith suffix "vocab#" = false →
        mapUriForBranch (.uri (ssvBase ++ suffix)) b =
          .uri (ssvBase ++ pyStripSet b ['/'] ++ "/" ++ suffix)) ∧
      (∀ (g : Graph) (t : Triple),
        t ∈ remapGraphForBranch g b ↔ ∃ u ∈ g, t = mapTripleForBranch u b) := by
  intro b
  have haudio : ∀ r : String,
      mapUriForBranch (.uri (ssvBase ++ "audio/" ++ r)) b = .uri (ssvBase ++ "audio/" ++ r) := by
    intro r
    have h0 : ssvBase ++ "audio/" ++ r = (ssvBase ++ "audio/") ++ r := by
      rw [String.append_assoc]
    have h1 : pyStartsWith (ssvBase ++ "audio/" ++ r) (ssvBase ++ "audio/") = true := by
      rw [h0]; exact pyStartsWith_append _ _
    have h2 : pyStartsWith (ssvBase ++ "audio/" ++ r) ssvBase = true := by
      rw [pyStartsWith_iff, stringData_append]
      exact List.prefix_append _ _
    simp [mapUriForBranch, h1, h2]
  have hvocab : ∀ r : String,
      mapUriForBranch (.uri (ssvBase ++ "vocab#" ++ r)) b = .uri (ssvBase ++ "vocab#" ++ r) := by
    intro r
    have h0 : ssvBase ++ "vocab#" ++ r = (ssvBase ++ "vocab#") ++ r := by
      rw [String.append_assoc]
    have h1 : pyStartsWith (ssvBase ++ "vocab#" ++ r) (ssvBase ++ "vocab#") = true := by
      rw [h0]; exact pyStartsWith_append _ _
    have h2 : pyStartsWith (ssvBase ++ "vocab#" ++ r) ssvBase = true := by
      rw [pyStartsWith_iff, stringData_append]
      exact List.prefix_append _ _
    simp [mapUriForBranch, h1, h2]
  refine ⟨haudio, hvocab, ?_, fun _ => rfl, fun _ _ => rfl, fun _ => rfl, fun _ => rfl, ?_, ?_⟩
  · intro s h
    simp [mapUriForBranch, h]
  · intro suffix hau hvo
    have h1 : pyStartsWith (ssvBase ++ suffix) ssvBase = true := pyStartsWith_append _ _
    have h2 : pyStartsWith (ssvBase ++ suffix) (ssvBase ++ "audio/") = false := by
      rw [pyStartsWith_append_right]; exact hau
    have h3 : pyStartsWith (ssvBase ++ suffix) (ssvBase ++ "vocab#") = false := by
      rw [pyStartsWith_append_right]; exact hvo
    simp only [mapUriForBranch, h1, h2, h3]
    simp only [Bool.false_eq_true, or_self, if_false, if_true]
    rw [string_drop_append]
  · intro g t
    unfold remapGraphForBranch
    have : ∀ (l : Graph) (acc : Graph),
        t ∈ l.foldl (fun ng u => gadd ng (mapTripleForBranch u b)) acc ↔
          t ∈ acc ∨ ∃ u ∈ l, t = mapTripleForBranch u b := by
      intro l
      induction l with
      | nil => simp
      | cons x xs ih =>
        intro acc
        simp only [List.foldl_cons]
        rw [ih]
        rw [mem_gadd]
        simp only [List.mem_cons]
        constructor
        · rintro ((h | h) | ⟨u, hu, rfl⟩)
          · exact Or.inl h
          · exact Or.inr ⟨x, Or.inl rfl, h⟩
          · exact Or.inr ⟨u, Or.inr hu, rfl⟩
        · rintro (h | ⟨u, (rfl | hu), rfl⟩)
          · exact Or.inl (Or.inl h)
          · exact Or.inl (Or.inr rfl)
          · exact Or.inr ⟨u, hu, rfl⟩
    rw [this g []]
    simp

/-- Witness for the C7 theorem at concrete inputs. -/
theorem branch_invariant_namespaces_witness :
    mapUriForBranch (.uri (ssvBase ++ "audio/" ++ "a/x.flac")) "dev" =
      .uri (ssvBase ++ "audio/" ++ "a/x.flac") ∧
    mapUriForBranch (.uri (ssvBase ++ "data/release/a")) "dev" =
      .uri (ssvBase ++ pyStripSet "dev" ['/'] ++ "/" ++ "data/release/a") ∧
    mapUriForBranch (.uri "http://purl.org/ontology/mo/Track") "dev" =
      .uri "http://purl.org/ontology/mo/Track" :=
  ⟨(branch_invariant_namespaces "dev").1 "a/x.flac",
   (by
     have h := (branch_invariant_namespaces "dev").2.2.2.2.2.2.2.1
       "data/release/a" (by decide) (by decide)
     exact h),
   (branch_invariant_namespaces "dev").2.2.1 _ (by decide)⟩

/-! ## Claim C5 — longest-prefix media-root matching (corrected: Python's
falsy test also discards an empty best root)

`if not best_root:` (line 376) is truthiness, not a `None` check: a candidate
root such as `/`, which `normalize_path` reduces to `''`, is discarded even
when it is the longest (indeed only) matching prefix, and the resolver falls
back to the first candidate. -/

theorem slashLen_pos (q : String) : 1 ≤ slashLen q := by
  unfold slashLen withSlash
  split
  · rename_i h
    unfold pyEndsWith at h
    have := List.isSuffixOf_iff_suffix.mp h
    have := this.length_le
    simpa using this
  · rw [stringData_append]
    simp

theorem bestRootLoop_spec (fp : String) :
    ∀ (roots : List String) (best : Option String) (len : Int),
      (match best with
       | none => len = -1
       | some b => pathIsPrefix b fp = true ∧ len = (slashLen b : Int)) →
      (match bestRootLoop fp roots (best, len) with
       | (some r, rl) =>
         pathIsPrefix r fp = true ∧ rl = (slashLen r : Int) ∧
         (best = some r ∨ r ∈ roots) ∧ len ≤ rl ∧
         (∀ q ∈ roots, pathIsPrefix q fp = true → (slashLen q : Int) ≤ rl)
       | (none, rl) => best = none ∧ rl = len ∧ ∀ q ∈ roots, pathIsPrefix q fp = false) := by
  intro roots
  induction roots with
  | nil =>
    intro best len hinv
    cases best with
    | none => exact ⟨rfl, rfl, by simp⟩
    | some b => exact ⟨hinv.1, hinv.2.symm ▸ rfl, Or.inl rfl, le_refl _, by simp⟩
  | cons root rest ih =>
    intro best len hinv
    rw [bestRootLoop]
    simp only []
    split_ifs with hc
    · have h2 := ih (some root) (slashLen root : Int) ⟨hc.1, rfl⟩
      rcases hres : bestRootLoop fp rest (some root, (slashLen root : Int)) with ⟨or, rl⟩
      rw [hres] at h2
      cases or with
      | some r =>
        obtain ⟨p1, p2, p3, p4, p5⟩ := h2
        have hcl : (slashLen root : Int) > len := hc.2
        refine ⟨p1, p2, ?_, by linarith, ?_⟩
        · rcases p3 with h | h
          · injection h with h
            exact Or.inr (h ▸ List.mem_cons_self root rest)
          · exact Or.inr (List.mem_cons_of_mem _ h)
        · intro q hq hpq
          rcases List.mem_cons.mp hq with rfl | hq
          · linarith
          · exact p5 q hq hpq
      | none =>
        exact absurd h2.1 (by simp)
    · have h2 := ih best len hinv
      rcases hres : bestRootLoop fp rest (best, len) with ⟨or, rl⟩
      rw [hres] at h2
      cases or with
      | some r =>
        obtain ⟨p1, p2, p3, p4, p5⟩ := h2
        refine ⟨p1, p2, ?_, p4, ?_⟩
        · rcases p3 with h | h
          · exact Or.inl h
          · exact Or.inr (List.mem_cons_of_mem _ h)
        · intro q hq hpq
          rcases List.mem_cons.mp hq with rfl | hq
          · -- skipped head: the prefix test passed, so it was not longer
            have hle : (slashLen q : Int) ≤ len := by
              by_contra hgt
              exact hc ⟨hpq, by omega⟩
            linarith
          · exact p5 q hq hpq
      | none =>
        obtain ⟨p1, p2, p3⟩ := h2
        refine ⟨p1, p2, ?_⟩
        intro q hq
        rcases List.mem_cons.mp hq with rfl | hq
        · by_contra hpq
          simp only [Bool.not_eq_false] at hpq
          have hle : (slashLen q : Int) ≤ len := by
            by_contra hgt
            exact hc ⟨hpq, by omega⟩
          have hlen : len = -1 := by rw [p1] at hinv; exact hinv
          have := slashLen_pos q
          omega
        · exact p3 q hq

theorem slashLen_no_trailing (q : String) (hq : pyEndsWith q "/" = false)
    (hne : q ≠ "") : 2 ≤ slashLen q := by
  unfold slashLen withSlash
  rw [if_neg (by simp [hq])]
  have hd : q.data ≠ [] := by
    intro h
    exact hne (by rw [← stringMk_data q, h])
  have hp := List.length_pos.mpr hd
  show 2 ≤ (q ++ "/").data.length
  rw [stringData_append, List.length_append]
  have h1 : ("/" : String).data.length = 1 := rfl
  omega

/-- Claim C5 (counterexample): a candidate root `/` normalizes to the empty
string; Python's falsy fallback test then discards it even though it is the
longest (only) matching prefix, and the resolver falls back to the first
candidate, which is not a prefix at all. -/
theorem falsy_empty_root_falls_back :
    normalize_path "/" = "" ∧
    pathIsPrefix "" "/music/x" = true ∧
    pathIsPrefix "/a" "/music/x" = false ∧
    (resolveRoot ["/a", ""] "/music/x").toOption = some "/a" := by
  decide

/-- Claim C5 (amended): over normalized candidate roots (no trailing slash,
the form `normalize_path` produces), the resolver always returns a root; when
some non-empty candidate is a path prefix of the document's normalized parent
directory, the returned root is a longest prefix from the list; otherwise —
no candidate matching, or only an empty candidate (a root such as `/`)
matching, which the falsy test discards — it falls back to the first
candidate. -/
theorem media_root_nonempty_longest_match :
    ∀ (roots : List String) (fp : String), roots ≠ [] →
      (∀ q ∈ roots, pyEndsWith q "/" = false) →
      ∃ r, resolveRoot roots fp = .ok r ∧
        ((∃ q ∈ roots, q ≠ "" ∧ pathIsPrefix q fp = true) →
          r ∈ roots ∧ r ≠ "" ∧ pathIsPrefix r fp = true ∧
          ∀ q ∈ roots, pathIsPrefix q fp = true → slashLen q ≤ slashLen r) ∧
        ((∀ q ∈ roots, q ≠ "" → pathIsPrefix q fp = false) → r = roots.headD "") := by
  intro roots fp hne hnorm
  have h := bestRootLoop_spec fp roots none (-1) rfl
  unfold resolveRoot
  rcases hres : bestRootLoop fp roots (none, -1) with ⟨or, rl⟩
  rw [hres] at h
  cases or with
  | some r =>
    obtain ⟨p1, p2, p3, _, p5⟩ := h
    have hrmem : r ∈ roots := by
      rcases p3 with h3 | h3
      · exact absurd h3 (by simp)
      · exact h3
    by_cases hre : r = ""
    · subst hre
      cases roots with
      | nil => exact absurd rfl hne
      | cons a rest =>
        refine ⟨a, by rfl, fun hex => ?_, fun _ => rfl⟩
        obtain ⟨q, hq, hqne, hqp⟩ := hex
        have h2 := p5 q hq hqp
        have h1 : 2 ≤ slashLen q := slashLen_no_trailing q (hnorm q hq) hqne
        rw [p2] at h2
        have hsl : slashLen ("" : String) = 1 := by decide
        rw [hsl] at h2
        omega
    · refine ⟨r, ?_, fun _ => ⟨hrmem, hre, p1, ?_⟩, fun hall => ?_⟩
      · show (if r ≠ "" then Except.ok r else
            match roots with
            | [] => Except.error ()
            | r0 :: _ => Except.ok r0) = Except.ok r
        rw [if_pos hre]
      · intro q hq hqp
        have := p5 q hq hqp
        rw [p2] at this
        exact_mod_cast this
      · exact absurd p1 (by simp [hall r hrmem hre])
  | none =>
    obtain ⟨_, _, p3⟩ := h
    cases roots with
    | nil => exact absurd rfl hne
    | cons a rest =>
      refine ⟨a, rfl, fun hex => ?_, fun _ => rfl⟩
      obtain ⟨q, hq, _, hqp⟩ := hex
      exact absurd hqp (by simp [p3 q hq])

/-- Witness for C5: the spec's own example — roots `/music` and
`/music/jazz`, document under `/music/jazz/album1` — resolves to
`/music/jazz`, checked both through the theorem and end-to-end through
`docComponent` (normalization included). -/
theorem media_root_nonempty_longest_match_witness :
    (∃ r, resolveRoot ["/music", "/music/jazz"] "/music/jazz/album1" = .ok r ∧
        ((∃ q ∈ ["/music", "/music/jazz"], q ≠ "" ∧
            pathIsPrefix q "/music/jazz/album1" = true) →
          r ∈ ["/music", "/music/jazz"] ∧ r ≠ "" ∧
          pathIsPrefix r "/music/jazz/album1" = true ∧
          ∀ q ∈ ["/music", "/music/jazz"], pathIsPrefix q "/music/jazz/album1" = true →
            slashLen q ≤ slashLen r) ∧
        ((∀ q ∈ ["/music", "/music/jazz"], q ≠ "" →
            pathIsPrefix q "/music/jazz/album1" = false) →
          r = (["/music", "/music/jazz"] : List String).headD "")) ∧
    (docComponent ["/music", "/music/jazz"] "/music/jazz/album1/a.cue").toOption =
      some ("/music/jazz", "album1") :=
  ⟨ media_root_nonempty_longest_match _ _ (by decide) (by decide), by decide⟩

/-! ## Claim C9 — the one-request-per-second gate (corrected: a raising
request leaves the gate stale)

`_MB_LAST_HIT` is written on line 49, after `requests.get` returns; when the
request raises, the exception propagates first (every caller catches and
continues), the gate keeps its old value, and the next request can be issued
less than one second later.  The minimum interval is guaranteed only after a
request that returned. -/

theorem mbTrace_mem_lb :
    ∀ (calls : List MbCall) (last : ℚ), (∀ c ∈ calls, 0 ≤ c.dur) →
      ∀ x ∈ mbTrace last calls, last + 1 ≤ x.1 := by
  intro calls
  induction calls with
  | nil =>
    intro last _ x hx
    cases hx
  | cons c cs ih =>
    intro last hd x hx
    unfold mbTrace at hx
    by_cases hmb : isMbHost c.host = true
    · rw [if_pos hmb] at hx
      rcases List.mem_cons.mp hx with rfl | hx
      · exact le_max_right _ _
      · have hlast : last ≤ (if c.ok then max c.arrival (last + 1) + c.dur else last) := by
          split
          · have h1 : last + 1 ≤ max c.arrival (last + 1) := le_max_right _ _
            have h2 : 0 ≤ c.dur := hd c (List.mem_cons_self _ _)
            linarith
          · exact le_refl last
        have := ih _ (fun y hy => hd y (List.mem_cons_of_mem _ hy)) x hx
        linarith
    · rw [if_neg hmb] at hx
      exact ih _ (fun y hy => hd y (List.mem_cons_of_mem _ hy)) x hx

/-- Claim C9 (counterexample): a gated request that raises leaves
`_MB_LAST_HIT` stale, and the next gated request can be issued under one
second later — here a failing call at t = 5 is followed by a second call
issued at the same instant. -/
theorem failed_request_leaves_gate_stale :
    mbTrace 0 [⟨"musicbrainz.org", 5, 0, false⟩, ⟨"musicbrainz.org", 5, 0, true⟩] =
      [((5 : ℚ), false), ((5 : ℚ), true)] ∧
    ¬ List.Chain' (fun a b : ℚ × Bool => a.1 + 1 ≤ b.1)
        (mbTrace 0 [⟨"musicbrainz.org", 5, 0, false⟩, ⟨"musicbrainz.org", 5, 0, true⟩]) := by
  have hmb : isMbHost "musicbrainz.org" = true := by decide
  have hmax : max (5 : ℚ) (0 + 1) = 5 := by
    rw [max_eq_left]
    norm_num
  have htr : mbTrace 0 [⟨"musicbrainz.org", 5, 0, false⟩, ⟨"musicbrainz.org", 5, 0, true⟩] =
      [((5 : ℚ), false), ((5 : ℚ), true)] := by
    unfold mbTrace
    rw [if_pos hmb]
    simp only [if_neg Bool.false_ne_true]
    unfold mbTrace
    rw [if_pos hmb]
    simp only [hmax]
    rfl
  refine ⟨htr, ?_⟩
  rw [htr]
  intro hch
  rw [List.chain'_cons] at hch
  have := hch.1
  norm_num at this

/-- Claim C9 (amended): in any sequential run of `mb_get` calls with
non-negative request durations, a gated (musicbrainz.org) request that
returned is followed by at least one second before the next gated request is
issued; after a request that raised, the gate is stale and no separation is
guaranteed (see the counterexample). -/
theorem mb_rate_gate_after_success :
    ∀ (last : ℚ) (calls : List MbCall), (∀ c ∈ calls, 0 ≤ c.dur) →
      List.Chain' (fun a b : ℚ × Bool => a.2 = true → a.1 + 1 ≤ b.1)
        (mbTrace last calls) := by
  intro last calls
  induction calls generalizing last with
  | nil =>
    intro _
    simp [mbTrace]
  | cons c cs ih =>
    intro hd
    unfold mbTrace
    by_cases hmb : isMbHost c.host = true
    · rw [if_pos hmb]
      rw [List.chain'_cons']
      constructor
      · intro y hy hok
        have hok2 : c.ok = true := hok
        have hy2 := List.mem_of_mem_head? hy
        rw [hok2] at hy2
        simp at hy2
        have hlb := mbTrace_mem_lb cs _ (fun z hz => hd z (List.mem_cons_of_mem _ hz)) y hy2
        have h2 : 0 ≤ c.dur := hd c (List.mem_cons_self _ _)
        show max c.arrival (last + 1) + 1 ≤ y.1
        linarith
      · exact ih _ (fun z hz => hd z (List.mem_cons_of_mem _ hz))
    · rw [if_neg hmb]
      exact ih _ (fun z hz => hd z (List.mem_cons_of_mem _ hz))

/-- Witness for C9 on a concrete call trace: two successful gated calls with
an ungated call and a failing gated call between. -/
theorem mb_rate_gate_after_success_witness :
    List.Chain' (fun a b : ℚ × Bool => a.2 = true → a.1 + 1 ≤ b.1)
      (mbTrace 0 [⟨"musicbrainz.org", 5, 1, true⟩, ⟨"cdn.example.org", 5, 0, true⟩,
                  ⟨"ws.musicbrainz.org", 6, 2, false⟩, ⟨"musicbrainz.org", 8, 1, true⟩]) :=
  mb_rate_gate_after_success 0 _ (by
    intro c hc
    fin_cases hc <;> norm_num)

/-! ## Claim C4 — ambiguous external-track candidates (corrected)

Lines 559-563: after the `> 90` similarity filter the code requires
`len(mbz_track_json) == 1`; with more than one candidate remaining it links
**no** work from the JSON-LD source (falling through to the WS/2 lookup) — it
does not use the first remaining match. -/

/-- Claim C4 counterexample: both external candidates survive the filter
(each title equals the local title, so any fuzz backend scores them 100), and
the step yields no work — whereas using the first remaining match, as the
claim states, would have yielded work `w1`. -/
theorem ambiguous_candidates_link_no_work :
    mbzCandidates [extTrackA, extTrackB] 1 = [extTrackA, extTrackB] ∧
    (mbzDisambiguate simExact [extTrackA, extTrackB] (some "Sonata")).toOption =
      some [extTrackA, extTrackB] ∧
    (workFromJsonLd simExact [extTrackA, extTrackB] 1 (some "Sonata")).toOption =
      some (none, []) ∧
    (workFromRecordingOf [extTrackA]).1 =
      some (Term.uri "https://musicbrainz.org/work/w1") := by
  decide

/-- Claim C4 (amended): after the >90 similarity filtering, a work is taken
from the external JSON-LD source only when exactly one candidate remains;
with more than one remaining — and likewise with zero — the enricher links no
work from this source and proceeds (to the WS/2 fallback); the single
remaining candidate's `recordingOf` is used when there is one. -/
theorem work_linked_only_on_unique_candidate :
    ∀ (sim : String → String → Nat) (tracks : List MbzTrackJson) (n : Nat)
      (lt : Option String) (cands : List MbzTrackJson),
      mbzDisambiguate sim (mbzCandidates tracks n) lt = .ok cands →
      (cands.length ≠ 1 → workFromJsonLd sim tracks n lt = .ok (none, [])) ∧
      (∀ c, cands = [c] → workFromJsonLd sim tracks n lt = .ok (workFromRecordingOf [c])) := by
  intro sim tracks n lt cands h
  have hw : workFromJsonLd sim tracks n lt = .ok (workFromRecordingOf cands) := by
    unfold workFromJsonLd
    simp only [h]
    rfl
  constructor
  · intro hlen
    rw [hw]
    rcases cands with _ | ⟨c, _ | ⟨d, t⟩⟩
    · rfl
    · exact absurd rfl hlen
    · rfl
  · intro c hc
    rw [hw, hc]

/-- Witness for the amended C4 theorem: the ambiguous two-candidate instance
yields no work; the unambiguous one-candidate instance yields its
`recordingOf` work. -/
theorem work_linked_only_on_unique_candidate_witness :
    workFromJsonLd simExact [extTrackA, extTrackB] 1 (some "Sonata") = .ok (none, []) ∧
    workFromJsonLd simExact [extTrackA] 1 (some "Sonata") =
      .ok (workFromRecordingOf [extTrackA]) :=
  ⟨(work_linked_only_on_unique_candidate simExact [extTrackA, extTrackB] 1 (some "Sonata")
      [extTrackA, extTrackB] (by rfl)).1 (by decide),
   (work_linked_only_on_unique_candidate simExact [extTrackA] 1 (some "Sonata")
      [extTrackA] (by rfl)).2 extTrackA rfl⟩

/-! ## Parser lemmas -/

theorem dropWhile_head_false (p : Char → Bool) :
    ∀ (l : List Char) (c : Char) (rest : List Char),
      l.dropWhile p = c :: rest → p c = false := by
  intro l
  induction l with
  | nil => intro c rest h; cases h
  | cons a as ih =>
    intro c rest h
    rw [List.dropWhile_cons] at h
    by_cases hp : p a = true
    · rw [if_pos hp] at h
      exact ih c rest h
    · rw [if_neg hp] at h
      cases h
      simpa using hp

/-- The head of a stripped line does not satisfy the strip predicate. -/
theorem stripWhile_head_false (p : Char → Bool) (l : List Char) (c : Char) (rest : List Char)
    (h : stripWhile p l = c :: rest) : p c = false := by
  unfold stripWhile at h
  have hpre : ((l.dropWhile p).reverse.dropWhile p).reverse <+: l.dropWhile p := by
    have hs : (l.dropWhile p).reverse.dropWhile p <:+ (l.dropWhile p).reverse :=
      List.dropWhile_suffix p
    have h2 := List.reverse_prefix.mpr hs
    simpa using h2
  rw [h] at hpre
  obtain ⟨t, ht⟩ := hpre
  have ht' : l.dropWhile p = c :: (rest ++ t) := by
    rw [← ht]
    simp
  exact dropWhile_head_false p l c (rest ++ t) ht'

/-- The head of a Python-stripped line is not a space. -/
theorem pyStrip_head_not_space (raw : String) (c : Char) (rest : List Char)
    (h : (pyStrip raw).data = c :: rest) : (c = ' ') = False := by
  have := stripWhile_head_false pyWs raw.data c rest h
  unfold pyWs at this
  simp only [Bool.or_eq_false_iff] at this
  simp only [eq_iff_iff, iff_false]
  intro hc
  rw [hc] at this
  simp at this

theorem dropWhile_space_self {c : Char} {rest : List Char} (hc : (c = ' ') = False) :
    (c :: rest).dropWhile (· = ' ') = c :: rest := by
  rw [List.dropWhile_cons]
  simp [hc]

/-- A matcher whose pattern's first char differs from the line's (non-space)
first char fails. -/
theorem capAfterSp_none_head {pre line : String} {c p1 : Char} {t prest : List Char}
    (hl : line.data = c :: t) (hp : pre.data = p1 :: prest)
    (hcs : (c = ' ') = False) (hne : (p1 = c) = False) :
    capAfterSp pre line = none := by
  have hb : (p1 == c) = false := beq_eq_false_iff_ne.mpr (fun h => hne ▸ h)
  simp only [capAfterSp, hl, hp, dropWhile_space_self hcs, List.isPrefixOf, hb,
    Bool.false_and, Bool.false_eq_true, if_false]

/-- A matcher whose pattern's second char differs from the line's fails. -/
theorem capAfterSp_none_head2 {pre line : String} {c1 c2 p2 : Char} {t prest : List Char}
    (hl : line.data = c1 :: c2 :: t) (hp : pre.data = c1 :: p2 :: prest)
    (hcs : (c1 = ' ') = False) (hne : (p2 = c2) = False) :
    capAfterSp pre line = none := by
  have hb : (p2 == c2) = false := beq_eq_false_iff_ne.mpr (fun h => hne ▸ h)
  simp only [capAfterSp, hl, hp, dropWhile_space_self hcs, List.isPrefixOf, hb,
    Bool.false_and, Bool.and_false, Bool.false_eq_true, if_false]

theorem trackMatch_none_head {line : String} {c : Char} {t : List Char}
    (hl : line.data = c :: t) (hcs : (c = ' ') = False) (hne : (c = 'T') = False) :
    trackMatch line = none := by
  have hb : ('T' == c) = false := beq_eq_false_iff_ne.mpr (fun h => hne ▸ h.symm)
  have hTd : "TRACK ".data = 'T' :: "RACK ".data := rfl
  simp only [trackMatch, hl, dropWhile_space_self hcs, hTd, List.isPrefixOf, hb,
    Bool.false_and, Bool.false_eq_true, if_false]

theorem fileMatch_none_head {line : String} {c : Char} {t : List Char}
    (hl : line.data = c :: t) (hne : (c = 'F') = False) :
    fileMatch line = none := by
  have hb : ('F' == c) = false := beq_eq_false_iff_ne.mpr (fun h => hne ▸ h.symm)
  have hFd : "FILE \"".data = 'F' :: "ILE \"".data := rfl
  have hsw : pyStartsWith line "FILE \"" = false := by
    simp only [pyStartsWith, hl, hFd, List.isPrefixOf, hb, Bool.false_and]
  simp only [fileMatch, hsw, Bool.false_eq_true, false_and, if_false]

/-- All seven body field matchers fail on a line starting with `FILE`. -/
theorem body_fields_none_of_FILE {line : String}
    (h : pyStartsWith line "FILE" = true) :
    capAfterSp "TITLE " line = none ∧
    capAfterSp "REM MUSICBRAINZ_TRACK_ID " line = none ∧
    capAfterSp "REM MUSICBRAINZ_ARTIST_ID " line = none ∧
    capAfterSp "PERFORMER " line = none ∧
    capAfterSp "ISRC " line = none ∧
    capAfterSp "PREGAP " line = none ∧
    capAfterSp "INDEX 01 " line = none ∧
    trackMatch line = none := by
  rw [pyStartsWith_iff] at h
  obtain ⟨t, ht⟩ := h
  have hl : line.data = 'F' :: 'I' :: 'L' :: 'E' :: t := by rw [← ht]; rfl
  refine ⟨?_, ?_, ?_, ?_, ?_, ?_, ?_, ?_⟩
  · exact capAfterSp_none_head hl rfl (by simp) (by simp)
  · exact capAfterSp_none_head hl rfl (by simp) (by simp)
  · exact capAfterSp_none_head hl rfl (by simp) (by simp)
  · exact capAfterSp_none_head hl rfl (by simp) (by simp)
  · exact capAfterSp_none_head hl rfl (by simp) (by simp)
  · exact capAfterSp_none_head hl rfl (by simp) (by simp)
  · exact capAfterSp_none_head hl rfl (by simp) (by simp)
  · exact trackMatch_none_head hl (by simp) (by simp)

/-- All seven body field matchers fail on a line starting with `TRACK`. -/
theorem body_fields_none_of_TRACK {line : String}
    (h : pyStartsWith line "TRACK" = true) :
    capAfterSp "TITLE " line = none ∧
    capAfterSp "REM MUSICBRAINZ_TRACK_ID " line = none ∧
    capAfterSp "REM MUSICBRAINZ_ARTIST_ID " line = none ∧
    capAfterSp "PERFORMER " line = none ∧
    capAfterSp "ISRC " line = none ∧
    capAfterSp "PREGAP " line = none ∧
    capAfterSp "INDEX 01 " line = none := by
  rw [pyStartsWith_iff] at h
  obtain ⟨t, ht⟩ := h
  have hl : line.data = 'T' :: 'R' :: 'A' :: 'C' :: 'K' :: t := by rw [← ht]; rfl
  refine ⟨?_, ?_, ?_, ?_, ?_, ?_, ?_⟩
  · exact capAfterSp_none_head2 hl rfl (by simp) (by simp)
  · exact capAfterSp_none_head hl rfl (by simp) (by simp)
  · exact capAfterSp_none_head hl rfl (by simp) (by simp)
  · exact capAfterSp_none_head hl rfl (by simp) (by simp)
  · exact capAfterSp_none_head hl rfl (by simp) (by simp)
  · exact capAfterSp_none_head hl rfl (by simp) (by simp)
  · exact capAfterSp_none_head hl rfl (by simp) (by simp)

/-! ## Assoc-list (Python dict) lemmas -/

theorem assocSet_any_self {α β : Type} [DecidableEq α] (k : α) (v : β) (xs : List (α × β)) :
    (assocSet k v xs).any (fun p => p.1 = k) = true := by
  unfold assocSet
  split
  · rename_i h
    simp only [List.any_eq_true] at h ⊢
    obtain ⟨p, hp, hpk⟩ := h
    simp only [decide_eq_true_eq] at hpk
    have hm := List.mem_map_of_mem (fun q : α × β => if q.1 = k then (q.1, v) else q) hp
    refine ⟨(p.1, v), by simpa [hpk] using hm, by simpa using hpk⟩
  · simp

theorem assocSet_any_preserve {α β : Type} [DecidableEq α] (k m : α)
    (xs : List (α × β)) (g : α × β → α × β) (hg : ∀ p, (g p).1 = p.1) :
    (xs.map g).any (fun p => p.1 = m) = xs.any (fun p => p.1 = m) := by
  induction xs with
  | nil => rfl
  | cons p ps ih =>
    simp only [List.map_cons, List.any_cons, ih, hg p]

theorem assocGet_map_update {α β : Type} [DecidableEq α] {k k' : α} (h : ¬ k = k') (v : β) :
    ∀ xs : List (α × β),
      assocGet k' (xs.map (fun p => if p.1 = k then (p.1, v) else p)) = assocGet k' xs := by
  intro xs
  induction xs with
  | nil => rfl
  | cons p ps ih =>
    by_cases hp : p.1 = k
    · have hk2 : ¬ p.1 = k' := fun hh => h (hp.symm.trans hh)
      unfold assocGet at *
      rw [List.map_cons, if_pos hp,
        List.find?_cons_of_neg _ (by simpa using hk2),
        List.find?_cons_of_neg _ (by simpa using hk2)]
      exact ih
    · by_cases hk2 : p.1 = k'
      · unfold assocGet
        rw [List.map_cons, if_neg hp,
          List.find?_cons_of_pos _ (by simpa using hk2),
          List.find?_cons_of_pos _ (by simpa using hk2)]
      · unfold assocGet at *
        rw [List.map_cons, if_neg hp,
          List.find?_cons_of_neg _ (by simpa using hk2),
          List.find?_cons_of_neg _ (by simpa using hk2)]
        exact ih

theorem assocGet_append_ne {α β : Type} [DecidableEq α] {k k' : α} (h : ¬ k = k') (v : β) :
    ∀ xs : List (α × β), assocGet k' (xs ++ [(k, v)]) = assocGet k' xs := by
  intro xs
  induction xs with
  | nil =>
    rw [List.nil_append]
    unfold assocGet
    rw [List.find?_cons_of_neg _ (by simpa using fun hh => h hh)]
  | cons p ps ih =>
    by_cases hk2 : p.1 = k'
    · unfold assocGet
      rw [List.cons_append,
        List.find?_cons_of_pos _ (by simpa using hk2),
        List.find?_cons_of_pos _ (by simpa using hk2)]
    · unfold assocGet at *
      rw [List.cons_append,
        List.find?_cons_of_neg _ (by simpa using hk2),
        List.find?_cons_of_neg _ (by simpa using hk2)]
      exact ih

theorem assocGet_assocSet_ne {α β : Type} [DecidableEq α] {k k' : α} (v : β)
    (xs : List (α × β)) (h : ¬ k = k') :
    assocGet k' (assocSet k v xs) = assocGet k' xs := by
  unfold assocSet
  split
  · exact assocGet_map_update h v xs
  · exact assocGet_append_ne h v xs

theorem mem_assocSet_ne {α β : Type} [DecidableEq α] {m k : α} {w v : β}
    {xs : List (α × β)} (h : ¬ m = k) :
    (m, w) ∈ assocSet k v xs ↔ (m, w) ∈ xs := by
  unfold assocSet
  split
  · constructor
    · intro hm
      obtain ⟨q, hq, hfq⟩ := List.mem_map.mp hm
      by_cases hqk : q.1 = k
      · rw [if_pos hqk] at hfq
        have : m = k := ((congrArg Prod.fst hfq).symm.trans hqk)
        exact absurd this h
      · rw [if_neg hqk] at hfq
        exact hfq ▸ hq
    · intro hm
      have := List.mem_map_of_mem (fun q : α × β => if q.1 = k then (q.1, v) else q) hm
      simpa [h] using this
  · simp only [List.mem_append, List.mem_singleton]
    constructor
    · rintro (hm | hm)
      · exact hm
      · have h2 := congrArg Prod.fst hm
        simp only [] at h2
        exact absurd h2 h
    · exact Or.inl

theorem pair_mem_assocSet_self {α β : Type} [DecidableEq α] (k : α) (v : β)
    (xs : List (α × β)) : (k, v) ∈ assocSet k v xs := by
  unfold assocSet
  split
  · rename_i h
    simp only [List.any_eq_true] at h
    obtain ⟨p, hp, hpk⟩ := h
    simp only [decide_eq_true_eq] at hpk
    have := List.mem_map_of_mem (fun q => if q.1 = k then (q.1, v) else q) hp
    simpa [hpk] using this
  · simp

theorem mem_map_update {α β : Type} [DecidableEq α] {n : α} {flds : β} {m : α}
    {xs : List (α × β)} (g : β → β) (h : (n, flds) ∈ xs) :
    (n, if n = m then g flds else flds) ∈
      xs.map (fun p => if p.1 = m then (p.1, g p.2) else p) := by
  have := List.mem_map_of_mem (fun p : α × β => if p.1 = m then (p.1, g p.2) else p) h
  by_cases hnm : n = m <;> simpa [hnm] using this

/-! ## Totality and skip behavior of the parser step -/

theorem setTrackField_spec {st : ParseState} {n : Nat} (hct : st.currentTrack = some n)
    (hwf : WfState st) (k v : String) :
    setTrackField st k v = .ok
      { st with tracks :=
          st.tracks.map (fun p => if p.1 = n then (p.1, assocSet k v p.2) else p) } := by
  unfold setTrackField
  rw [hct]
  simp only []
  rw [if_pos (hwf n hct)]

theorem wf_update_header {st : ParseState} (hwf : WfState st) (h : List (String × String))
    (m : Option (List String)) :
    WfState { st with header := h, mbzArtistList := m } :=
  fun n hn => hwf n hn

theorem wf_open_track (st : ParseState) (n : Nat) (flds : Fields) :
    WfState { st with tracks := assocSet n flds st.tracks, currentTrack := some n } := by
  intro m hm
  have : n = m := by
    simpa using hm
  subst this
  exact assocSet_any_self n flds st.tracks

theorem wf_set_field {st : ParseState} {n : Nat} (hwf : WfState st) (k v : String) :
    WfState
      { st with tracks :=
          st.tracks.map (fun p => if p.1 = n then (p.1, assocSet k v p.2) else p) } := by
  intro m hm
  have h1 := hwf m hm
  rw [assocSet_any_preserve n m st.tracks _ (fun p => by by_cases hp : p.1 = n <;> simp [hp])]
  exact h1

theorem trackMatch_some_startsWith {raw : String} {n : Nat}
    (h : trackMatch (pyStrip raw) = some n) :
    pyStartsWith (pyStrip raw) "TRACK" = true := by
  unfold trackMatch at h
  rcases hl : (pyStrip raw).data with _ | ⟨c, t⟩
  · rw [hl] at h
    simp [List.dropWhile, List.isPrefixOf] at h
  · have hcs := pyStrip_head_not_space raw c t hl
    rw [hl, dropWhile_space_self hcs] at h
    by_cases hp : ("TRACK ".data).isPrefixOf (c :: t) = true
    · rw [pyStartsWith_iff, hl]
      have h2 : ("TRACK ".data) <+: (c :: t) := List.isPrefixOf_iff_prefix.mp hp
      exact List.IsPrefix.trans ⟨[' '], rfl⟩ h2
    · rw [if_neg (by simpa using hp)] at h
      cases h

theorem fileMatch_some_startsWith {line f : String} (h : fileMatch line = some f) :
    pyStartsWith line "FILE" = true := by
  unfold fileMatch at h
  by_cases hc : (pyStartsWith line "FILE \"" = true ∧ pyEndsWith line "\" WAVE" = true ∧
      line.data.length ≥ 12)
  · have h1 := hc.1
    rw [pyStartsWith_iff] at h1 ⊢
    exact List.IsPrefix.trans ⟨[' ', '"'], rfl⟩ h1
  · rw [if_neg hc] at h
    cases h

/-- Totality of one parser step from a well-formed state: no line can reach
the `KeyError` sites. -/
theorem stepCueLine_ok (st : ParseState) (raw : String) (hwf : WfState st) :
    ∃ st', stepCueLine st (pyStrip raw) = .ok st' ∧ WfState st' := by
  set line := pyStrip raw with hline
  unfold stepCueLine
  by_cases hr : (st.currentTrack = none ∧ ¬ pyStartsWith line "FILE" = true ∧
      ¬ pyStartsWith line "TRACK" = true)
  · rw [if_pos hr]
    rcases h1 : capAfter "REM MUSICBRAINZ_ALBUM_ARTIST_ID " line with _ | c1
    swap
    · exact ⟨{ st with mbzArtistList := some (pySplit c1 ";") },
        by simp only [h1], fun n hn => hwf n hn⟩
    rcases h2 : capAfter "REM MUSICBRAINZ_ALBUM_ID " line with _ | c2
    swap
    · exact ⟨{ st with header := assocSet "mbz_album_id" c2 st.header },
        by simp only [h1, h2], fun n hn => hwf n hn⟩
    rcases h3 : remGeneric line with _ | kv
    swap
    · exact ⟨{ st with header := assocSet (pyLower kv.1) kv.2 st.header },
        by simp only [h1, h2, h3], fun n hn => hwf n hn⟩
    rcases h4 : capAfter "CATALOG " line with _ | c4
    swap
    · exact ⟨{ st with header := assocSet "catalog" c4 st.header },
        by simp only [h1, h2, h3, h4], fun n hn => hwf n hn⟩
    rcases h5 : capAfter "TITLE " line with _ | c5
    swap
    · exact ⟨{ st with header := assocSet "title" c5 st.header },
        by simp only [h1, h2, h3, h4, h5], fun n hn => hwf n hn⟩
    rcases h6 : capAfter "PERFORMER " line with _ | c6
    swap
    · exact ⟨{ st with header := assocSet "performer" c6 st.header },
        by simp only [h1, h2, h3, h4, h5, h6], fun n hn => hwf n hn⟩
    rcases h7 : trackMatch line with _ | n
    swap
    · exact ⟨{ st with tracks := assocSet n [] st.tracks, currentTrack := some n },
        by simp only [h1, h2, h3, h4, h5, h6, h7], wf_open_track st n []⟩
    exact ⟨st, by simp only [h1, h2, h3, h4, h5, h6, h7], hwf⟩
  · rw [if_neg hr]
    rcases hct : st.currentTrack with _ | n
    · -- current track absent: the line must start with FILE or TRACK
      have hFT : pyStartsWith line "FILE" = true ∨ pyStartsWith line "TRACK" = true := by
        by_contra hno
        push_neg at hno
        exact hr ⟨hct, hno.1, hno.2⟩
      rcases hFT with hF | hT
      · obtain ⟨f1, f2, f3, f4, f5, f6, f7, f8⟩ := body_fields_none_of_FILE hF
        rcases hfm : fileMatch line with _ | f
        · exact ⟨st, by simp only [f1, f2, f3, f4, f5, f6, f7, f8, hfm], hwf⟩
        · exact ⟨{ st with currentFile := some f },
            by simp only [f1, f2, f3, f4, f5, f6, f7, f8, hfm, hct], fun n hn => hwf n hn⟩
      · obtain ⟨f1, f2, f3, f4, f5, f6, f7⟩ := body_fields_none_of_TRACK hT
        rcases htm : trackMatch line with _ | n
        · -- a TRACK-prefixed line that is not a track match: fileMatch also fails
          have hfm : fileMatch line = none := by
            rw [pyStartsWith_iff] at hT
            obtain ⟨t, ht⟩ := hT
            exact fileMatch_none_head (by rw [← ht]; rfl) (by simp)
          exact ⟨st, by simp only [f1, f2, f3, f4, f5, f6, f7, htm, hfm], hwf⟩
        · exact ⟨{ st with
              tracks := assocSet n
                (match st.currentFile with
                 | some f => if f ≠ "" then [("file", f)] else []
                 | none => []) st.tracks,
              currentTrack := some n },
            by simp only [f1, f2, f3, f4, f5, f6, f7, htm], wf_open_track st n _⟩
    · -- current track open: all field writes succeed
      rcases h1 : capAfterSp "TITLE " line with _ | c1
      swap
      · exact ⟨{ st with tracks :=
            st.tracks.map (fun p => if p.1 = n then (p.1, assocSet "title" c1 p.2) else p) },
          by simp only [h1, setTrackField_spec hct hwf], wf_set_field hwf "title" c1⟩
      rcases h2 : capAfterSp "REM MUSICBRAINZ_TRACK_ID " line with _ | c2
      swap
      · exact ⟨{ st with tracks :=
            st.tracks.map (fun p => if p.1 = n then (p.1, assocSet "mbz_track" c2 p.2) else p) },
          by simp only [h1, h2, setTrackField_spec hct hwf], wf_set_field hwf "mbz_track" c2⟩
      rcases h3 : capAfterSp "REM MUSICBRAINZ_ARTIST_ID " line with _ | c3
      swap
      · exact ⟨{ st with tracks :=
            st.tracks.map (fun p => if p.1 = n then (p.1, assocSet "mbz_artist" c3 p.2) else p) },
          by simp only [h1, h2, h3, setTrackField_spec hct hwf], wf_set_field hwf "mbz_artist" c3⟩
      rcases h4 : capAfterSp "PERFORMER " line with _ | c4
      swap
      · exact ⟨{ st with tracks :=
            st.tracks.map (fun p => if p.1 = n then (p.1, assocSet "performer" c4 p.2) else p) },
          by simp only [h1, h2, h3, h4, setTrackField_spec hct hwf], wf_set_field hwf "performer" c4⟩
      rcases h5 : capAfterSp "ISRC " line with _ | c5
      swap
      · exact ⟨{ st with tracks :=
            st.tracks.map (fun p => if p.1 = n then (p.1, assocSet "isrc" c5 p.2) else p) },
          by simp only [h1, h2, h3, h4, h5, setTrackField_spec hct hwf], wf_set_field hwf "isrc" c5⟩
      rcases h6 : capAfterSp "PREGAP " line with _ | c6
      swap
      · exact ⟨{ st with tracks :=
            st.tracks.map (fun p => if p.1 = n then (p.1, assocSet "pregap" c6 p.2) else p) },
          by simp only [h1, h2, h3, h4, h5, h6, setTrackField_spec hct hwf], wf_set_field hwf "pregap" c6⟩
      rcases h7 : capAfterSp "INDEX 01 " line with _ | c7
      swap
      · exact ⟨{ st with tracks :=
            st.tracks.map (fun p => if p.1 = n then (p.1, assocSet "index" c7 p.2) else p) },
          by simp only [h1, h2, h3, h4, h5, h6, h7, setTrackField_spec hct hwf], wf_set_field hwf "index" c7⟩
      rcases h8 : trackMatch line with _ | n'
      swap
      · exact ⟨{ st with
            tracks := assocSet n'
              (match st.currentFile with
               | some f => if f ≠ "" then [("file", f)] else []
               | none => []) st.tracks,
            currentTrack := some n' },
          by simp only [h1, h2, h3, h4, h5, h6, h7, h8], wf_open_track st n' _⟩
      rcases h9 : fileMatch line with _ | f
      swap
      · exact ⟨{ st with currentFile := some f },
          by simp only [h1, h2, h3, h4, h5, h6, h7, h8, h9, hct], fun m hm => hwf m hm⟩
      exact ⟨st, by simp only [h1, h2, h3, h4, h5, h6, h7, h8, h9], hwf⟩

theorem runLines_ok : ∀ (lines : List String) (st : ParseState), WfState st →
    ∃ st', runLines st lines = .ok st' ∧ WfState st' := by
  intro lines
  induction lines with
  | nil => exact fun st hwf => ⟨st, rfl, hwf⟩
  | cons l ls ih =>
    intro st hwf
    obtain ⟨st1, hst1, hwf1⟩ := stepCueLine_ok st l hwf
    obtain ⟨st', hst', hwf'⟩ := ih st1 hwf1
    refine ⟨st', ?_, hwf'⟩
    unfold runLines stepCue
    rw [hst1]
    exact hst'

theorem wf_initState : WfState initState := by
  intro n hn
  cases hn

theorem headerRoute_iff {st : ParseState} {line : String} :
    headerRoute st line = true ↔
      (st.currentTrack = none ∧ ¬ pyStartsWith line "FILE" = true ∧
       ¬ pyStartsWith line "TRACK" = true) := by
  unfold headerRoute
  simp [Bool.and_eq_true, beq_iff_eq, Bool.not_eq_true', and_assoc]

/-! ## Claim C6 — the parser is total and skips unrecognized lines
(confirmed) -/

/-- Claim C6: `parse_cue_file` returns a document for every sequence of
lines, however malformed (the `KeyError` sites of the Python code are
unreachable: a body-routed line with no open track necessarily starts with
`FILE` or `TRACK` and matches no field pattern); and any line matching none
of the recognized patterns of its branch leaves the parser state exactly
unchanged. -/
theorem parse_total_and_unmatched_skipped :
    (∀ (filePath : String) (lines : List String), ∃ d, parse_cue_file filePath lines = .ok d) ∧
    (∀ (st : ParseState) (l : String), unmatchedLine st l = true → stepCue st l = .ok st) := by
  constructor
  · intro filePath lines
    obtain ⟨st', hst', _⟩ := runLines_ok lines initState wf_initState
    exact ⟨_, by unfold parse_cue_file; rw [hst']⟩
  · intro st l h
    unfold unmatchedLine unmatchedStripped at h
    unfold stepCue stepCueLine
    set line := pyStrip l with hline
    by_cases hr : (st.currentTrack = none ∧ ¬ pyStartsWith line "FILE" = true ∧
        ¬ pyStartsWith line "TRACK" = true)
    · rw [if_pos hr]
      rw [if_pos (headerRoute_iff.mpr hr)] at h
      simp only [Bool.and_eq_true, Option.isNone_iff_eq_none] at h
      obtain ⟨⟨⟨⟨⟨⟨h1, h2⟩, h3⟩, h4⟩, h5⟩, h6⟩, h7⟩ := h
      simp only [h1, h2, h3, h4, h5, h6, h7]
    · rw [if_neg hr]
      rw [if_neg (fun hh => hr (headerRoute_iff.mp hh))] at h
      simp only [Bool.and_eq_true, Option.isNone_iff_eq_none] at h
      obtain ⟨⟨⟨⟨⟨⟨⟨⟨h1, h2⟩, h3⟩, h4⟩, h5⟩, h6⟩, h7⟩, h8⟩, h9⟩ := h
      simp only [h1, h2, h3, h4, h5, h6, h7, h8, h9]

/-- Witness for C6 at concrete inputs: a thoroughly malformed document still
parses, and a garbage line is skipped without changing the state. -/
theorem parse_total_and_unmatched_skipped_witness :
    (∃ d, parse_cue_file "a.cue" ["GARBAGE ###", "", "TRACK x AUDIO", "\t \t"] = .ok d) ∧
    stepCue initState "GARBAGE ###" = .ok initState :=
  ⟨parse_total_and_unmatched_skipped.1 "a.cue" _,
   parse_total_and_unmatched_skipped.2 initState "GARBAGE ###" (by decide)⟩

/-! ## Claim C10 — the one-slot file buffer is never cleared (confirmed) -/

/-- Effect of one non-`FILE` line on the file buffer and on track file
bindings: the buffer persists, existing bindings persist (tracks opened by
this line are re-bound to the buffered file), and a `TRACK` line binds the
buffered file to the opened track. -/
theorem stepCueLine_buffer {st st' : ParseState} {raw f : String}
    (hstep : stepCueLine st (pyStrip raw) = .ok st')
    (hnf : isFileLine raw = false)
    (hcf : st.currentFile = some f) (hf : ¬ f = "") :
    st'.currentFile = some f ∧
    (∀ n flds0, (n, flds0) ∈ st.tracks →
      ∃ flds, (n, flds) ∈ st'.tracks ∧
        (assocGet "file" flds = assocGet "file" flds0 ∨ assocGet "file" flds = some f)) ∧
    (∀ n, trackMatch (pyStrip raw) = some n →
      ∃ flds, (n, flds) ∈ st'.tracks ∧ assocGet "file" flds = some f) := by
  have hfields : (match st.currentFile with
      | some g => if g ≠ "" then [("file", g)] else []
      | none => ([] : Fields)) = [("file", f)] := by
    rw [hcf]
    simp [hf]
  have hgetf : assocGet "file" ([("file", f)] : Fields) = some f := by
    simp [assocGet, List.find?]
  unfold isFileLine at hnf
  have hnf : fileMatch (pyStrip raw) = none := by
    rcases hx : fileMatch (pyStrip raw) with _ | x
    · rfl
    · rw [hx] at hnf
      cases hnf
  set line := pyStrip raw with hline
  unfold stepCueLine at hstep
  by_cases hr : (st.currentTrack = none ∧ ¬ pyStartsWith line "FILE" = true ∧
      ¬ pyStartsWith line "TRACK" = true)
  · rw [if_pos hr] at hstep
    have htm : trackMatch line = none := by
      rcases htm : trackMatch line with _ | n
      · rfl
      · exact absurd (trackMatch_some_startsWith htm) hr.2.2
    rcases h1 : capAfter "REM MUSICBRAINZ_ALBUM_ARTIST_ID " line with _ | c1
    swap
    · simp only [h1] at hstep
      cases hstep
      exact ⟨hcf, fun n flds0 hm => ⟨flds0, hm, Or.inl rfl⟩,
        fun n hn => absurd (htm ▸ hn) (by simp)⟩
    rcases h2 : capAfter "REM MUSICBRAINZ_ALBUM_ID " line with _ | c2
    swap
    · simp only [h1, h2] at hstep
      cases hstep
      exact ⟨hcf, fun n flds0 hm => ⟨flds0, hm, Or.inl rfl⟩,
        fun n hn => absurd (htm ▸ hn) (by simp)⟩
    rcases h3 : remGeneric line with _ | kv
    swap
    · simp only [h1, h2, h3] at hstep
      cases hstep
      exact ⟨hcf, fun n flds0 hm => ⟨flds0, hm, Or.inl rfl⟩,
        fun n hn => absurd (htm ▸ hn) (by simp)⟩
    rcases h4 : capAfter "CATALOG " line with _ | c4
    swap
    · simp only [h1, h2, h3, h4] at hstep
      cases hstep
      exact ⟨hcf, fun n flds0 hm => ⟨flds0, hm, Or.inl rfl⟩,
        fun n hn => absurd (htm ▸ hn) (by simp)⟩
    rcases h5 : capAfter "TITLE " line with _ | c5
    swap
    · simp only [h1, h2, h3, h4, h5] at hstep
      cases hstep
      exact ⟨hcf, fun n flds0 hm => ⟨flds0, hm, Or.inl rfl⟩,
        fun n hn => absurd (htm ▸ hn) (by simp)⟩
    rcases h6 : capAfter "PERFORMER " line with _ | c6
    swap
    · simp only [h1, h2, h3, h4, h5, h6] at hstep
      cases hstep
      exact ⟨hcf, fun n flds0 hm => ⟨flds0, hm, Or.inl rfl⟩,
        fun n hn => absurd (htm ▸ hn) (by simp)⟩
    simp only [h1, h2, h3, h4, h5, h6, htm] at hstep
    cases hstep
    exact ⟨hcf, fun n flds0 hm => ⟨flds0, hm, Or.inl rfl⟩,
      fun n hn => absurd (htm ▸ hn) (by simp)⟩
  · rw [if_neg hr] at hstep
    -- helper facts for the field-set cases
    have fieldCase : ∀ (k v : String) (m : Nat), ¬ k = "file" →
        st.currentTrack = some m →
        setTrackField st k v = .ok st' →
        st'.currentFile = some f ∧
        (∀ n flds0, (n, flds0) ∈ st.tracks →
          ∃ flds, (n, flds) ∈ st'.tracks ∧
            (assocGet "file" flds = assocGet "file" flds0 ∨ assocGet "file" flds = some f)) := by
      intro k v m hk hct hset
      unfold setTrackField at hset
      rw [hct] at hset
      simp only [] at hset
      by_cases hany : (st.tracks.any fun p => p.1 = m) = true
      · rw [if_pos hany] at hset
        cases hset
        refine ⟨hcf, fun n flds0 hm => ?_⟩
        refine ⟨if n = m then assocSet k v flds0 else flds0, mem_map_update _ hm, Or.inl ?_⟩
        by_cases hnm : n = m
        · rw [if_pos hnm]
          exact assocGet_assocSet_ne v flds0 hk
        · rw [if_neg hnm]
      · rw [if_neg hany] at hset
        cases hset
    -- for TRACK-shaped lines no field matcher fires, so a field-match
    -- hypothesis refutes trackMatch
    rcases h1 : capAfterSp "TITLE " line with _ | c1
    swap
    · rcases hct : st.currentTrack with _ | m
      · simp [setTrackField, hct, h1] at hstep
      · simp only [h1] at hstep
        obtain ⟨hc, hfwd⟩ := fieldCase "title" c1 m (by decide) hct hstep
        refine ⟨hc, hfwd, fun n hn => ?_⟩
        exact absurd h1 (by rw [(body_fields_none_of_TRACK (trackMatch_some_startsWith hn)).1]; simp)
    rcases h2 : capAfterSp "REM MUSICBRAINZ_TRACK_ID " line with _ | c2
    swap
    · rcases hct : st.currentTrack with _ | m
      · simp [setTrackField, hct, h1, h2] at hstep
      · simp only [h1, h2] at hstep
        obtain ⟨hc, hfwd⟩ := fieldCase "mbz_track" c2 m (by decide) hct hstep
        refine ⟨hc, hfwd, fun n hn => ?_⟩
        exact absurd h2
          (by rw [(body_fields_none_of_TRACK (trackMatch_some_startsWith hn)).2.1]; simp)
    rcases h3 : capAfterSp "REM MUSICBRAINZ_ARTIST_ID " line with _ | c3
    swap
    · rcases hct : st.currentTrack with _ | m
      · simp [setTrackField, hct, h1, h2, h3] at hstep
      · simp only [h1, h2, h3] at hstep
        obtain ⟨hc, hfwd⟩ := fieldCase "mbz_artist" c3 m (by decide) hct hstep
        refine ⟨hc, hfwd, fun n hn => ?_⟩
        exact absurd h3
          (by rw [(body_fields_none_of_TRACK (trackMatch_some_startsWith hn)).2.2.1]; simp)
    rcases h4 : capAfterSp "PERFORMER " line with _ | c4
    swap
    · rcases hct : st.currentTrack with _ | m
      · simp [setTrackField, hct, h1, h2, h3, h4] at hstep
      · simp only [h1, h2, h3, h4] at hstep
        obtain ⟨hc, hfwd⟩ := fieldCase "performer" c4 m (by decide) hct hstep
        refine ⟨hc, hfwd, fun n hn => ?_⟩
        exact absurd h4
          (by rw [(body_fields_none_of_TRACK (trackMatch_some_startsWith hn)).2.2.2.1]; simp)
    rcases h5 : capAfterSp "ISRC " line with _ | c5
    swap
    · rcases hct : st.currentTrack with _ | m
      · simp [setTrackField, hct, h1, h2, h3, h4, h5] at hstep
      · simp only [h1, h2, h3, h4, h5] at hstep
        obtain ⟨hc, hfwd⟩ := fieldCase "isrc" c5 m (by decide) hct hstep
        refine ⟨hc, hfwd, fun n hn => ?_⟩
        exact absurd h5
          (by rw [(body_fields_none_of_TRACK (trackMatch_some_startsWith hn)).2.2.2.2.1]; simp)
    rcases h6 : capAfterSp "PREGAP " line with _ | c6
    swap
    · rcases hct : st.currentTrack with _ | m
      · simp [setTrackField, hct, h1, h2, h3, h4, h5, h6] at hstep
      · simp only [h1, h2, h3, h4, h5, h6] at hstep
        obtain ⟨hc, hfwd⟩ := fieldCase "pregap" c6 m (by decide) hct hstep
        refine ⟨hc, hfwd, fun n hn => ?_⟩
        exact absurd h6
          (by rw [(body_fields_none_of_TRACK (trackMatch_some_startsWith hn)).2.2.2.2.2.1]; simp)
    rcases h7 : capAfterSp "INDEX 01 " line with _ | c7
    swap
    · rcases hct : st.currentTrack with _ | m
      · simp [setTrackField, hct, h1, h2, h3, h4, h5, h6, h7] at hstep
      · simp only [h1, h2, h3, h4, h5, h6, h7] at hstep
        obtain ⟨hc, hfwd⟩ := fieldCase "index" c7 m (by decide) hct hstep
        refine ⟨hc, hfwd, fun n hn => ?_⟩
        exact absurd h7
          (by rw [(body_fields_none_of_TRACK (trackMatch_some_startsWith hn)).2.2.2.2.2.2]; simp)
    rcases h8 : trackMatch line with _ | n'
    swap
    · -- a TRACK line: the opened track gets the buffered file
      simp only [h1, h2, h3, h4, h5, h6, h7, h8, hfields] at hstep
      cases hstep
      refine ⟨hcf, fun n flds0 hm => ?_, fun n hn => ?_⟩
      · by_cases hnn : n = n'
        · subst hnn
          exact ⟨[("file", f)], pair_mem_assocSet_self n [("file", f)] st.tracks,
            Or.inr hgetf⟩
        · exact ⟨flds0, (mem_assocSet_ne hnn).mpr hm, Or.inl rfl⟩
      · have hnn : n = n' := by
          first
          | (injection hn with hh; exact hh.symm)
          | (rw [h8] at hn; injection hn with hh; exact hh.symm)
        subst hnn
        exact ⟨[("file", f)], pair_mem_assocSet_self n [("file", f)] st.tracks, hgetf⟩
    -- no track match: fileMatch is excluded by hypothesis, so the line is skipped
    simp only [h1, h2, h3, h4, h5, h6, h7, h8, hnf] at hstep
    cases hstep
    exact ⟨hcf, fun n flds0 hm => ⟨flds0, hm, Or.inl rfl⟩,
      fun n hn => absurd hn (by first | simp | (rw [h8]; simp))⟩

/-- A `FILE "..." WAVE` line just loads the one-slot buffer, whatever the
state. -/
theorem stepCueLine_fileLine (st : ParseState) (raw f : String)
    (hfm : fileMatch (pyStrip raw) = some f) :
    stepCueLine st (pyStrip raw) = .ok { st with currentFile := some f } := by
  set line := pyStrip raw with hline
  have hF : pyStartsWith line "FILE" = true := fileMatch_some_startsWith hfm
  have hr : ¬ (st.currentTrack = none ∧ ¬ pyStartsWith line "FILE" = true ∧
      ¬ pyStartsWith line "TRACK" = true) := fun hand => hand.2.1 hF
  unfold stepCueLine
  rw [if_neg hr]
  obtain ⟨f1, f2, f3, f4, f5, f6, f7, f8⟩ := body_fields_none_of_FILE hF
  simp only [f1, f2, f3, f4, f5, f6, f7, f8, hfm]

theorem runLines_append (a b : List String) (st : ParseState) :
    runLines st (a ++ b) =
      match runLines st a with
      | .error e => .error e
      | .ok s => runLines s b := by
  induction a generalizing st with
  | nil => rfl
  | cons l ls ih =>
    rw [List.cons_append]
    show (match stepCue st l with
        | Except.error e => Except.error e
        | Except.ok st' => runLines st' (ls ++ b)) =
      match (match stepCue st l with
        | Except.error e => (Except.error e : Except Unit ParseState)
        | Except.ok st' => runLines st' ls) with
      | Except.error e => Except.error e
      | Except.ok s => runLines s b
    rcases hs : stepCue st l with e | s
    · rfl
    · exact ih s

/-- The buffered filename is bound to every track opened over a run of
`FILE`-free lines, and already-present bindings persist. -/
theorem runLines_buffer {f : String} (hf : ¬ f = "") :
    ∀ (lines : List String) (st st' : ParseState),
      st.currentFile = some f →
      (∀ l ∈ lines, isFileLine l = false) →
      runLines st lines = .ok st' →
      st'.currentFile = some f ∧
      (∀ n flds0, (n, flds0) ∈ st.tracks →
        ∃ flds, (n, flds) ∈ st'.tracks ∧
          (assocGet "file" flds = assocGet "file" flds0 ∨ assocGet "file" flds = some f)) ∧
      (∀ n ∈ trackLineNums lines, ∃ flds, (n, flds) ∈ st'.tracks ∧
        assocGet "file" flds = some f) := by
  intro lines
  induction lines with
  | nil =>
    intro st st' hcf _ hrun
    cases hrun
    exact ⟨hcf, fun n flds0 hm => ⟨flds0, hm, Or.inl rfl⟩, by simp [trackLineNums]⟩
  | cons l ls ih =>
    intro st st' hcf hnf hrun
    unfold runLines stepCue at hrun
    rcases hs : stepCueLine st (pyStrip l) with e | st1
    · rw [hs] at hrun
      cases hrun
    · rw [hs] at hrun
      obtain ⟨hcf1, hfwd1, hnew1⟩ :=
        stepCueLine_buffer hs (hnf l (List.mem_cons_self _ _)) hcf hf
      obtain ⟨hcf2, hfwd2, hnew2⟩ :=
        ih st1 st' hcf1 (fun x hx => hnf x (List.mem_cons_of_mem _ hx)) hrun
      refine ⟨hcf2, ?_, ?_⟩
      · intro n flds0 hm
        obtain ⟨flds1, hm1, hv1⟩ := hfwd1 n flds0 hm
        obtain ⟨flds2, hm2, hv2⟩ := hfwd2 n flds1 hm1
        refine ⟨flds2, hm2, ?_⟩
        rcases hv2 with hv2 | hv2
        · rcases hv1 with hv1 | hv1
          · exact Or.inl (hv2.trans hv1)
          · exact Or.inr (hv2.trans hv1)
        · exact Or.inr hv2
      · intro n hn
        unfold trackLineNums at hn
        rw [List.filterMap_cons] at hn
        rcases htm : trackMatch (pyStrip l) with _ | n0
        · rw [htm] at hn
          exact hnew2 n hn
        · rw [htm] at hn
          rcases List.mem_cons.mp hn with rfl | hn
          · obtain ⟨flds1, hm1, hv1⟩ := hnew1 n htm
            obtain ⟨flds2, hm2, hv2⟩ := hfwd2 n flds1 hm1
            refine ⟨flds2, hm2, ?_⟩
            rcases hv2 with hv2 | hv2
            · exact hv2.trans hv1
            · exact hv2
          · exact hnew2 n hn

/-- Claim C10: the parser's one-slot file buffer is never cleared after
attachment — once a `FILE "name" WAVE` line (with a non-empty name) has
loaded the buffer, every track opened by the following `TRACK` lines, with no
intervening `FILE` line, is bound to that same filename, not only the first
one. -/
theorem file_buffer_never_cleared :
    ∀ (pre post : List String) (fileLine f filePath : String) (doc : CueDoc),
      fileMatch (pyStrip fileLine) = some f → ¬ f = "" →
      (∀ l ∈ post, isFileLine l = false) →
      parse_cue_file filePath (pre ++ fileLine :: post) = .ok doc →
      ∀ n ∈ trackLineNums post,
        ∃ flds, (n, flds) ∈ doc.tracks ∧ assocGet "file" flds = some f := by
  intro pre post fileLine f filePath doc hfm hf hpost hparse n hn
  unfold parse_cue_file at hparse
  rcases hrun : runLines initState (pre ++ fileLine :: post) with e | stF
  · rw [hrun] at hparse
    cases hparse
  · rw [hrun] at hparse
    have hdoc : doc.tracks = stF.tracks := by
      cases hparse
      rfl
    rw [runLines_append] at hrun
    rcases hpre : runLines initState pre with e | st1
    · rw [hpre] at hrun
      cases hrun
    · rw [hpre] at hrun
      unfold runLines stepCue at hrun
      rw [stepCueLine_fileLine st1 fileLine f hfm] at hrun
      have hcf1 : ({ st1 with currentFile := some f } : ParseState).currentFile = some f := rfl
      obtain ⟨_, _, hnew⟩ := runLines_buffer hf post _ stF hcf1 hpost hrun
      obtain ⟨flds, hmem, hval⟩ := hnew n hn
      exact ⟨flds, hdoc ▸ hmem, hval⟩

/-- Witness for C10: one `FILE` line followed by two `TRACK` lines binds the
same file to both opened tracks, not only the first. -/
theorem file_buffer_never_cleared_witness :
    (∃ flds, (1, flds) ∈ [(1, [("file", "x.wav")]), (2, [("file", "x.wav")])] ∧
       assocGet "file" flds = some "x.wav") ∧
    (∃ flds, (2, flds) ∈ [(1, [("file", "x.wav")]), (2, [("file", "x.wav")])] ∧
       assocGet "file" flds = some "x.wav") :=
  ⟨file_buffer_never_cleared [] ["TRACK 01 AUDIO", "TRACK 02 AUDIO"] "FILE \"x.wav\" WAVE"
     "x.wav" "a.cue"
     (CueDoc.mk "a.cue" [] none [(1, [("file", "x.wav")]), (2, [("file", "x.wav")])])
     (by decide) (by decide) (by decide) (by rfl) 1 (by decide),
   file_buffer_never_cleared [] ["TRACK 01 AUDIO", "TRACK 02 AUDIO"] "FILE \"x.wav\" WAVE"
     "x.wav" "a.cue"
     (CueDoc.mk "a.cue" [] none [(1, [("file", "x.wav")]), (2, [("file", "x.wav")])])
     (by decide) (by decide) (by decide) (by rfl) 2 (by decide)⟩

/-! ## Claim C3 — `_val_ok`-guarded emission (corrected)

The guard is real for the title/name/catalogue-number/issued/label/local-path
fields, but the per-track ISRC (line 527) and the external-identifier fields
(lines 534-537, 642-645) are emitted whenever the key is present, sentinel
included. -/

theorem goodGraph_nil : goodGraph [] := by
  intro t ht
  cases ht

theorem goodGraph_gadd {g : Graph} {x : Triple} (hg : goodGraph g)
    (hx : goodTriple x = true) : goodGraph (gadd g x) := by
  intro t ht
  rcases mem_gadd.mp ht with h | rfl
  · exact hg t h
  · exact hx

theorem goodGraph_gunion {g h : Graph} (hg : goodGraph g) (hh : goodGraph h) :
    goodGraph (gunion g h) := by
  intro t ht
  rcases mem_gunion.mp ht with h1 | h1
  · exact hg t h1
  · exact hh t h1

/-- A fold of a graph-to-graph step that preserves goodness preserves
goodness. -/
theorem goodGraph_foldl {α : Type} {f : Graph → α → Graph}
    (hf : ∀ g1 a, goodGraph g1 → goodGraph (f g1 a)) :
    ∀ (l : List α) (g : Graph), goodGraph g → goodGraph (l.foldl f g) := by
  intro l
  induction l with
  | nil => exact fun g hg => hg
  | cons x xs ih => exact fun g hg => ih (f g x) (hf g x hg)

theorem goodTriple_unguarded {s o : Term} {p : String}
    (h1 : ¬ (p = dctermsTitle ∨ p = foafName ∨ p = moCatalogueNumber ∨ p = ssvoLocalPath))
    (h2 : ¬ p = dctermsIssued) (h3 : ¬ p = rdfsLabel) :
    goodTriple (s, Term.uri p, o) = true := by
  show goodObj p o = true
  unfold goodObj
  rw [if_neg h1, if_neg h2, if_neg h3]

theorem goodTriple_guarded_lit {s : Term} {p v : String}
    (h1 : p = dctermsTitle ∨ p = foafName ∨ p = moCatalogueNumber ∨ p = ssvoLocalPath)
    (hv : val_ok (some v) = true) :
    goodTriple (s, Term.uri p, Term.lit v) = true := by
  show goodObj p (Term.lit v) = true
  unfold goodObj
  rw [if_pos h1]
  exact hv

theorem goodTriple_issued_lit {s : Term} {v : String} (hv : val_ok (some v) = true) :
    goodTriple (s, Term.uri dctermsIssued, Term.lit v) = true := by
  show goodObj dctermsIssued (Term.lit v) = true
  unfold goodObj
  rw [if_neg (by decide), if_pos rfl]
  exact hv

theorem goodTriple_issued_typed {s : Term} {v : String} (hv : val_ok (some v) = true) :
    goodTriple (s, Term.uri dctermsIssued, Term.litTyped v xsdDate) = true := by
  show goodObj dctermsIssued (Term.litTyped v xsdDate) = true
  unfold goodObj
  rw [if_neg (by decide), if_pos rfl]
  show (xsdDate = xsdDate && val_ok (some v)) = true
  rw [hv]
  simp

theorem goodTriple_label {s : Term} {pre v : String} (hv : val_ok (some v) = true)
    (hpre : pre ∈ ["Release: ", "Record: ", "Track: ", "Performance: ", "Performer: "]) :
    goodTriple (s, Term.uri rdfsLabel, Term.lit (pre ++ v)) = true := by
  show goodObj rdfsLabel (Term.lit (pre ++ v)) = true
  unfold goodObj
  rw [if_neg (by decide), if_neg (by decide), if_pos rfl]
  rw [List.any_eq_true]
  refine ⟨pre, hpre, ?_⟩
  show (pre.data.isPrefixOf (pre ++ v).data &&
    val_ok (some ⟨(pre ++ v).data.drop pre.data.length⟩)) = true
  rw [Bool.and_eq_true]
  constructor
  · rw [List.isPrefixOf_iff_prefix, stringData_append]
    exact List.prefix_append pre.data v.data
  · rw [string_drop_append]
    exact hv

/-- `rdfType` is not one of the guarded predicates (and likewise below, one
lemma per unguarded predicate the builder emits). -/
theorem gt_rdfType {s o : Term} : goodTriple (s, Term.uri rdfType, o) = true :=
  goodTriple_unguarded (by decide) (by decide) (by decide)

theorem gt_moRecordProp {s o : Term} : goodTriple (s, Term.uri moRecordProp, o) = true :=
  goodTriple_unguarded (by decide) (by decide) (by decide)

theorem gt_moMusicbrainz {s o : Term} : goodTriple (s, Term.uri moMusicbrainz, o) = true :=
  goodTriple_unguarded (by decide) (by decide) (by decide)

theorem gt_moReleaseProp {s o : Term} : goodTriple (s, Term.uri moReleaseProp, o) = true :=
  goodTriple_unguarded (by decide) (by decide) (by decide)

theorem gt_evTime {s o : Term} : goodTriple (s, Term.uri evTime, o) = true :=
  goodTriple_unguarded (by decide) (by decide) (by decide)

theorem gt_tlAtYear {s o : Term} : goodTriple (s, Term.uri tlAtYear, o) = true :=
  goodTriple_unguarded (by decide) (by decide) (by decide)

theorem gt_moTrackCount {s o : Term} : goodTriple (s, Term.uri moTrackCount, o) = true :=
  goodTriple_unguarded (by decide) (by decide) (by decide)

theorem gt_moTrackProp {s o : Term} : goodTriple (s, Term.uri moTrackProp, o) = true :=
  goodTriple_unguarded (by decide) (by decide) (by decide)

theorem gt_moPublicationOf {s o : Term} : goodTriple (s, Term.uri moPublicationOf, o) = true :=
  goodTriple_unguarded (by decide) (by decide) (by decide)

theorem gt_ssvoPeaks {s o : Term} : goodTriple (s, Term.uri ssvoPeaks, o) = true :=
  goodTriple_unguarded (by decide) (by decide) (by decide)

theorem gt_moPublishedAs {s o : Term} : goodTriple (s, Term.uri moPublishedAs, o) = true :=
  goodTriple_unguarded (by decide) (by decide) (by decide)

theorem gt_moIsrc {s o : Term} : goodTriple (s, Term.uri moIsrc, o) = true :=
  goodTriple_unguarded (by decide) (by decide) (by decide)

theorem gt_moTrackNumber {s o : Term} : goodTriple (s, Term.uri moTrackNumber, o) = true :=
  goodTriple_unguarded (by decide) (by decide) (by decide)

theorem gt_moAvailableAs {s o : Term} : goodTriple (s, Term.uri moAvailableAs, o) = true :=
  goodTriple_unguarded (by decide) (by decide) (by decide)

theorem gt_moRecordedAs {s o : Term} : goodTriple (s, Term.uri moRecordedAs, o) = true :=
  goodTriple_unguarded (by decide) (by decide) (by decide)

theorem gt_moPerformanceOf {s o : Term} : goodTriple (s, Term.uri moPerformanceOf, o) = true :=
  goodTriple_unguarded (by decide) (by decide) (by decide)

theorem gt_moPerformed {s o : Term} : goodTriple (s, Term.uri moPerformed, o) = true :=
  goodTriple_unguarded (by decide) (by decide) (by decide)

/-- The guarded-literal lemmas, one per guarded predicate and label prefix. -/
theorem gt_title {s : Term} {v : String} (hv : val_ok (some v) = true) :
    goodTriple (s, Term.uri dctermsTitle, Term.lit v) = true :=
  goodTriple_guarded_lit (Or.inl rfl) hv

theorem gt_name {s : Term} {v : String} (hv : val_ok (some v) = true) :
    goodTriple (s, Term.uri foafName, Term.lit v) = true :=
  goodTriple_guarded_lit (Or.inr (Or.inl rfl)) hv

theorem gt_catno {s : Term} {v : String} (hv : val_ok (some v) = true) :
    goodTriple (s, Term.uri moCatalogueNumber, Term.lit v) = true :=
  goodTriple_guarded_lit (Or.inr (Or.inr (Or.inl rfl))) hv

theorem gt_localPath {s : Term} {v : String} (hv : val_ok (some v) = true) :
    goodTriple (s, Term.uri ssvoLocalPath, Term.lit v) = true :=
  goodTriple_guarded_lit (Or.inr (Or.inr (Or.inr rfl))) hv

theorem gt_label_release {s : Term} {v : String} (hv : val_ok (some v) = true) :
    goodTriple (s, Term.uri rdfsLabel, Term.lit ("Release: " ++ v)) = true :=
  goodTriple_label hv (by decide)

theorem gt_label_record {s : Term} {v : String} (hv : val_ok (some v) = true) :
    goodTriple (s, Term.uri rdfsLabel, Term.lit ("Record: " ++ v)) = true :=
  goodTriple_label hv (by decide)

theorem gt_label_track {s : Term} {v : String} (hv : val_ok (some v) = true) :
    goodTriple (s, Term.uri rdfsLabel, Term.lit ("Track: " ++ v)) = true :=
  goodTriple_label hv (by decide)

theorem gt_label_performance {s : Term} {v : String} (hv : val_ok (some v) = true) :
    goodTriple (s, Term.uri rdfsLabel, Term.lit ("Performance: " ++ v)) = true :=
  goodTriple_label hv (by decide)

theorem gt_label_performer {s : Term} {v : String} (hv : val_ok (some v) = true) :
    goodTriple (s, Term.uri rdfsLabel, Term.lit ("Performer: " ++ v)) = true :=
  goodTriple_label hv (by decide)

/- `goodTriple` and `goodObj` are kept opaque from here on: the per-predicate
lemmas above are their complete interface for the goodness proofs. -/
attribute [irreducible] goodTriple goodObj

theorem good_releaseGraphInit (release record : Term) (t c m : Option String) :
    goodGraph (releaseGraphInit release record t c m) := by
  unfold releaseGraphInit
  rcases t with _ | tv <;> rcases c with _ | cv <;> rcases m with _ | mv <;>
    (try simp only []) <;> (try split_ifs) <;>
    (repeat' (refine goodGraph_gadd ?_ ?_)) <;>
    first
      | exact goodGraph_nil
      | exact gt_rdfType
      | exact gt_moRecordProp
      | exact gt_moMusicbrainz
      | exact gt_title (by assumption)
      | exact gt_label_release (by assumption)
      | exact gt_catno (by assumption)

theorem good_releaseEventGraph (release re tn : Term) (issued : Option String) :
    goodGraph (releaseEventGraph release re tn issued) := by
  unfold releaseEventGraph
  rcases issued with _ | v
  · rcases hyr : extract_year none with _ | yr <;>
      simp only [hyr] <;>
      (repeat' (refine goodGraph_gadd ?_ ?_)) <;>
      first
        | exact goodGraph_nil
        | exact gt_rdfType
        | exact gt_moReleaseProp
        | exact gt_evTime
        | exact gt_tlAtYear
  · rcases hyr : extract_year (some v) with _ | yr <;>
      simp only [hyr] <;> (try split_ifs) <;>
      (repeat' (refine goodGraph_gadd ?_ ?_)) <;>
      first
        | exact goodGraph_nil
        | exact gt_rdfType
        | exact gt_moReleaseProp
        | exact gt_evTime
        | exact gt_tlAtYear
        | exact goodTriple_issued_typed (by assumption)
        | exact goodTriple_issued_lit (by assumption)

theorem good_recordGraphInit (record : Term) (t m : Option String) (d : CueDoc) :
    goodGraph (recordGraphInit record t m d) := by
  unfold recordGraphInit
  rcases t with _ | tv <;> rcases m with _ | mv <;>
    (try simp only []) <;> (try split_ifs) <;>
    (repeat' (refine goodGraph_gadd ?_ ?_)) <;>
    first
      | exact goodGraph_nil
      | exact gt_rdfType
      | exact gt_moTrackCount
      | exact gt_moMusicbrainz
      | exact gt_label_record (by assumption)

theorem good_signalSection (fs : String → Bool) (pr : Option String) (dfp comp : String)
    (signal track : Term) (n : Nat) (fields : Fields) (g0 : Graph) (hg : goodGraph g0) :
    goodGraph (signalSection fs pr dfp comp signal track n fields g0).1 := by
  unfold signalSection
  rcases hfi : assocGet "file" fields with _ | f <;>
    rcases hisrc : assocGet "isrc" fields with _ | i <;>
    simp only [hfi, hisrc] <;> (try split_ifs) <;>
    (repeat' (refine goodGraph_gadd ?_ ?_)) <;>
    first
      | exact hg
      | exact gt_rdfType
      | exact gt_moPublishedAs
      | exact gt_moIsrc
      | exact gt_ssvoPeaks

theorem good_trackSection (track : Term) (n : Nat) (fields : Fields) (au : Option Term)
    (tg pv : Graph) (htg : goodGraph tg) (hpv : goodGraph pv) :
    goodGraph (trackSection track n fields au tg pv).1 ∧
    goodGraph (trackSection track n fields au tg pv).2 := by
  unfold trackSection
  rcases hmt : assocGet "mbz_track" fields with _ | mt <;>
    rcases hti : assocGet "title" fields with _ | t <;>
    rcases hfi : assocGet "file" fields with _ | lp <;>
    rcases au with _ | a <;>
    simp only [hmt, hti, hfi] <;> (try split_ifs) <;>
    (refine ⟨?_, ?_⟩) <;>
    (repeat' (refine goodGraph_gadd ?_ ?_)) <;>
    first
      | exact htg
      | exact hpv
      | exact gt_rdfType
      | exact gt_moMusicbrainz
      | exact gt_moTrackNumber
      | exact gt_label_track (by assumption)
      | exact gt_localPath (by assumption)
      | exact gt_moAvailableAs

theorem good_performanceSection (pf sg : Term) (work : Option Term)
    (title : Option String) : goodGraph (performanceSection pf sg work title) := by
  unfold performanceSection
  rcases work with _ | w <;> rcases title with _ | t <;>
    (try simp only []) <;> (try split_ifs) <;>
    (repeat' (refine goodGraph_gadd ?_ ?_)) <;>
    first
      | exact goodGraph_nil
      | exact gt_rdfType
      | exact gt_moRecordedAs
      | exact gt_moPerformanceOf
      | exact gt_label_performance (by assumption)

theorem good_performerSection (pr pf : Term) (fields : Fields) :
    goodGraph (performerSection pr pf fields) := by
  unfold performerSection
  rcases hpn : assocGet "performer" fields with _ | pn <;>
    rcases hma : assocGet "mbz_artist" fields with _ | ma <;>
    simp only [hpn, hma] <;> (try split_ifs) <;>
    (try refine goodGraph_foldl (fun g1 a hg1 => goodGraph_gadd hg1 gt_moMusicbrainz) _ _ ?_) <;>
    (repeat' (refine goodGraph_gadd ?_ ?_)) <;>
    first
      | exact goodGraph_nil
      | exact gt_rdfType
      | exact gt_moPerformed
      | exact gt_name (by assumption)
      | exact gt_label_performer (by assumption)

/-- When the oracle has no recording relations, the WS/2 fallback (with a
cached map) never finds a work and never adds triples. -/
theorem wsFallbackWork_cached_no_rels (enr : Enrich)
    (hrels : ∀ rid, enr.recordingRels rid = none) (m : String) (n : Nat)
    (ws : Option WsRelease) (tm : List (String × String)) :
    wsFallbackWork enr m ws (some tm) n = (none, [], some tm) := by
  unfold wsFallbackWork
  rcases hid : assocGet (toString n) tm with _ | rid <;> simp only [hid]
  rw [hrels rid]

/-- The general no-relations case reduces to the cached one. -/
theorem wsFallbackWork_no_rels (enr : Enrich)
    (hrels : ∀ rid, enr.recordingRels rid = none) (m : String)
    (ws : Option WsRelease) (rm : Option (List (String × String))) (n : Nat) :
    ∃ mp, wsFallbackWork enr m ws rm n = (none, [], some mp) := by
  rcases rm with _ | mp0
  · rcases ws with _ | w
    · rcases hrec : enr.wsRecordings m with _ | dd
      · exact ⟨[], by
          have h := wsFallbackWork_cached_no_rels enr hrels m n none []
          unfold wsFallbackWork at h ⊢
          simp only [hrec]
          simpa using h⟩
      · exact ⟨buildRecMap dd, by
          have h := wsFallbackWork_cached_no_rels enr hrels m n none (buildRecMap dd)
          unfold wsFallbackWork at h ⊢
          simp only [hrec]
          simpa using h⟩
    · exact ⟨buildRecMap w, by
        have h := wsFallbackWork_cached_no_rels enr hrels m n (some w) (buildRecMap w)
        unfold wsFallbackWork at h ⊢
        simpa using h⟩
  · exact ⟨mp0, wsFallbackWork_cached_no_rels enr hrels m n ws mp0⟩

/-- With enrichment absent the whole work-resolution step is a no-op apart
from the recordings-map cache. -/
theorem workStep_enrichNone (sim : String → String → Nat) (mb : Option String)
    (ws : Option WsRelease) (rm : Option (List (String × String))) (n : Nat)
    (ti : Option String) :
    ∃ rm2, workStep sim enrichNone mb none ws rm n ti = .ok (none, [], rm2) := by
  unfold workStep
  rcases mb with _ | m
  · exact ⟨rm, rfl⟩
  · obtain ⟨mp, hmp⟩ := wsFallbackWork_no_rels enrichNone (fun _ => rfl) m ws rm n
    refine ⟨some mp, ?_⟩
    simp only [hmp]
    rfl

theorem good_trackSection_fst (track : Term) (n : Nat) (fields : Fields)
    (au : Option Term) (tg pv : Graph) (htg : goodGraph tg) (hpv : goodGraph pv) :
    goodGraph (trackSection track n fields au tg pv).1 :=
  (good_trackSection track n fields au tg pv htg hpv).1

theorem good_trackSection_snd (track : Term) (n : Nat) (fields : Fields)
    (au : Option Term) (tg pv : Graph) (htg : goodGraph tg) (hpv : goodGraph pv) :
    goodGraph (trackSection track n fields au tg pv).2 :=
  (good_trackSection track n fields au tg pv htg hpv).2

/-- One track-loop iteration with enrichment absent succeeds and preserves
goodness of every threaded graph. -/
theorem good_trackStep (sim : String → String → Nat) (fs : String → Bool)
    (pr : Option String) (dfp comp : String) (release record : Term)
    (mb : Option String) (ws : Option WsRelease) (REG : Graph) (st : TrackState)
    (e : Nat × Fields)
    (hg : goodGraph st.g) (hpriv : goodGraph st.priv) (hrel : goodGraph st.releaseG)
    (hrec : goodGraph st.recordG) (htr : goodGraph st.trackG) (hsig : goodGraph st.signalG)
    (hREG : goodGraph REG) :
    ∃ st2, trackStep sim enrichNone fs pr dfp comp release record mb none ws REG st e =
        .ok st2 ∧
      goodGraph st2.g ∧ goodGraph st2.priv ∧ goodGraph st2.releaseG ∧
      goodGraph st2.recordG ∧ goodGraph st2.trackG ∧ goodGraph st2.signalG := by
  obtain ⟨rm2, hws⟩ := workStep_enrichNone sim mb ws st.recMap e.1 (assocGet "title" e.2)
  unfold trackStep
  simp only [hws]
  refine ⟨_, rfl, ?_, ?_, ?_, ?_, ?_, ?_⟩
  · refine goodGraph_gunion (goodGraph_gunion (goodGraph_gunion (goodGraph_gunion
      (goodGraph_gunion (goodGraph_gunion (goodGraph_gunion ?_ ?_) hREG) ?_) ?_) ?_) ?_) ?_
    · exact hg
    · exact goodGraph_gadd hrel gt_moPublicationOf
    · exact goodGraph_gadd hrec gt_moTrackProp
    · exact good_trackSection_fst _ _ _ _ _ _ htr hpriv
    · exact good_signalSection _ _ _ _ _ _ _ _ _ hsig
    · exact good_performanceSection _ _ _ _
    · exact good_performerSection _ _ _
  · exact good_trackSection_snd _ _ _
      ((signalSection fs pr dfp comp (Term.uri (nsSSVSignal ++ (comp ++ "#" ++ toString e.1)))
        (Term.uri (nsSSVTrack ++ (comp ++ "#" ++ toString e.1))) e.1 e.2 st.signalG).2)
      _ _ htr hpriv
  · exact goodGraph_gadd hrel gt_moPublicationOf
  · exact goodGraph_gadd hrec gt_moTrackProp
  · exact good_trackSection_fst _ _ _ _ _ _ htr hpriv
  · exact good_signalSection _ _ _ _ _ _ _ _ _ hsig

/-- The whole track loop with enrichment absent succeeds and preserves
goodness. -/
theorem good_trackFold (sim : String → String → Nat) (fs : String → Bool)
    (pr : Option String) (dfp comp : String) (release record : Term)
    (mb : Option String) (ws : Option WsRelease) (REG : Graph)
    (hREG : goodGraph REG) :
    ∀ (tracks : List (Nat × Fields)) (st : TrackState),
      goodGraph st.g → goodGraph st.priv → goodGraph st.releaseG →
      goodGraph st.recordG → goodGraph st.trackG → goodGraph st.signalG →
      ∃ st2, trackFold sim enrichNone fs pr dfp comp release record mb none ws REG
          st tracks = .ok st2 ∧
        goodGraph st2.g ∧ goodGraph st2.priv ∧ goodGraph st2.releaseG ∧
        goodGraph st2.recordG ∧ goodGraph st2.trackG ∧ goodGraph st2.signalG := by
  intro tracks
  induction tracks with
  | nil =>
    intro st h1 h2 h3 h4 h5 h6
    exact ⟨st, rfl, h1, h2, h3, h4, h5, h6⟩
  | cons e es ih =>
    intro st h1 h2 h3 h4 h5 h6
    obtain ⟨st1, hstep, g1, g2, g3, g4, g5, g6⟩ :=
      good_trackStep sim fs pr dfp comp release record mb ws REG st e
        h1 h2 h3 h4 h5 h6 hREG
    obtain ⟨st2, hfold, p1, p2, p3, p4, p5, p6⟩ := ih st1 g1 g2 g3 g4 g5 g6
    refine ⟨st2, ?_, p1, p2, p3, p4, p5, p6⟩
    unfold trackFold
    rw [hstep]
    exact hfold

/-- Splitting an `Except` bind that succeeded. -/
theorem except_bind_ok {α β : Type} {m : Except Unit α} {f : α → Except Unit β} {b : β}
    (h : (m >>= f) = .ok b) : ∃ a, m = .ok a ∧ f a = .ok b := by
  cases m with
  | error e => cases h
  | ok a => exact ⟨a, rfl, h⟩

/-- Processing one document with enrichment absent preserves goodness of the
accumulated global and private graphs. -/
theorem good_processDoc (roots : List String) (sim : String → String → Nat)
    (fs : String → Bool) (pr : Option String) (b : Nat) (acc : BuildOut) (d : CueDoc)
    (hg : goodGraph acc.g) (hpriv : goodGraph acc.priv) :
    ∀ out, processDoc roots sim enrichNone fs pr b acc d = .ok out →
      goodGraph out.g ∧ goodGraph out.priv := by
  intro out hout
  unfold processDoc at hout
  obtain ⟨rc, hdc, hout2⟩ := except_bind_ok hout
  obtain ⟨fin, hfold, hpure⟩ := except_bind_ok hout2
  have halb : (mbidCleanOf d).bind enrichNone.albumJson = none := by
    cases mbidCleanOf d <;> rfl
  have hwsj : (mbidCleanOf d).bind enrichNone.wsRelease = none := by
    cases mbidCleanOf d <;> rfl
  rw [halb, hwsj] at hfold
  simp only [labelsFold] at hfold
  obtain ⟨fin2, hfold2, f1, f2, f3, f4, f5, f6⟩ :=
    good_trackFold sim fs pr d.filePath rc.2 (Term.uri (nsSSVRelease ++ rc.2))
      (Term.uri (nsSSVRecord ++ rc.2)) (mbidCleanOf d) none
      (releaseEventGraph (Term.uri (nsSSVRelease ++ rc.2))
        (Term.uri (nsSSVReleaseEvent ++ rc.2)) (Term.bnode b) (issuedDateOf none d))
      (good_releaseEventGraph _ _ _ _) d.tracks
      ⟨gunion (gunion acc.g
          (releaseGraphInit (Term.uri (nsSSVRelease ++ rc.2)) (Term.uri (nsSSVRecord ++ rc.2))
            (assocGet "title" d.header)
            (pyOrOpt (assocGet "catalog" d.header) (assocGet "cddbcat" d.header))
            (mbidCleanOf d)))
        (releaseEventGraph (Term.uri (nsSSVRelease ++ rc.2))
          (Term.uri (nsSSVReleaseEvent ++ rc.2)) (Term.bnode b) (issuedDateOf none d)),
       acc.priv,
       releaseGraphInit (Term.uri (nsSSVRelease ++ rc.2)) (Term.uri (nsSSVRecord ++ rc.2))
         (assocGet "title" d.header)
         (pyOrOpt (assocGet "catalog" d.header) (assocGet "cddbcat" d.header))
         (mbidCleanOf d),
       recordGraphInit (Term.uri (nsSSVRecord ++ rc.2)) (assocGet "title" d.header)
         (mbidCleanOf d) d,
       [], [], [], none⟩
      (goodGraph_gunion (goodGraph_gunion hg (good_releaseGraphInit _ _ _ _ _))
        (good_releaseEventGraph _ _ _ _))
      hpriv (good_releaseGraphInit _ _ _ _ _) (good_recordGraphInit _ _ _ _)
      goodGraph_nil goodGraph_nil
  have hfin : fin2 = fin := by
    have h12 := hfold2.symm.trans hfold
    exact Except.ok.inj h12
  cases hpure
  subst hfin
  exact ⟨f1, f2⟩

/-- The document fold with enrichment absent preserves goodness. -/
theorem good_docsFold (roots : List String) (sim : String → String → Nat)
    (fs : String → Bool) (pr : Option String) :
    ∀ (ds : List CueDoc) (k : Nat) (acc : BuildOut),
      goodGraph acc.g → goodGraph acc.priv →
      ∀ out, docsFold roots sim enrichNone fs pr k acc ds = .ok out →
        goodGraph out.g ∧ goodGraph out.priv := by
  intro ds
  induction ds with
  | nil =>
    intro k acc h1 h2 out hout
    cases hout
    exact ⟨h1, h2⟩
  | cons d ds ih =>
    intro k acc h1 h2 out hout
    unfold docsFold at hout
    rcases hpd : processDoc roots sim enrichNone fs pr k acc d with err | acc2
    · rw [hpd] at hout
      cases hout
    · rw [hpd] at hout
      obtain ⟨g1, g2⟩ := good_processDoc roots sim fs pr k acc d h1 h2 acc2 hpd
      exact ih (k + 1) acc2 g1 g2 out hout

/-- Claim C3 (counterexample): `_val_ok` rejects the `'__NONE__'` sentinel,
yet a track whose ISRC field holds the sentinel still gets an `mo:isrc`
triple — line 527 emits the ISRC without a `_val_ok` guard. -/
theorem sentinel_isrc_still_emitted :
    val_ok (some "__NONE__") = false ∧
    (Term.uri (nsSSVSignal ++ "a#1"), Term.uri moIsrc, Term.uri (nsISRC ++ "__NONE__")) ∈
      ((build_rdf_content [sentinelIsrcDoc] ["/music"] simExact enrichNone
          (fun _ => false) none 0).toOption.getD emptyBuildOut).g :=
  ⟨by decide, by set_option maxRecDepth 100000 in decide⟩

/-- Claim C3 (amended): with enrichment absent, every triple the builder emits
— in the public or the private graph — under one of the `_val_ok`-guarded
predicates (`dcterms:title`, `foaf:name`, `mo:catalogue_number`,
`dcterms:issued`, `rdfs:label`, `ssvo:localPath`) carries a `_val_ok`-valid
value, the labels in one of the five prefixed forms over a valid value; the
per-track ISRC and the external-identifier fields are emitted whenever their
key is present, sentinel included (see the counterexample). -/
theorem guarded_fields_emit_only_valid_values (docs : List CueDoc)
    (roots : List String) (sim : String → String → Nat) (fs : String → Bool)
    (pr : Option String) (seed : Nat) (out : BuildOut)
    (hout : build_rdf_content docs roots sim enrichNone fs pr seed = .ok out) :
    goodGraph out.g ∧ goodGraph out.priv := by
  unfold build_rdf_content at hout
  exact good_docsFold (roots.map normalize_path) sim fs pr docs seed emptyBuildOut
    goodGraph_nil goodGraph_nil out hout

/-- Witness for C3: the amended theorem applied to the spec's two-track
example document. -/
theorem guarded_fields_emit_only_valid_values_witness :
    goodGraph ((build_rdf_content [twoTrackDoc] ["/music"] simExact enrichNone
        (fun _ => false) none 0).toOption.getD emptyBuildOut).g ∧
    goodGraph ((build_rdf_content [twoTrackDoc] ["/music"] simExact enrichNone
        (fun _ => false) none 0).toOption.getD emptyBuildOut).priv :=
  guarded_fields_emit_only_valid_values [twoTrackDoc] ["/music"] simExact
    (fun _ => false) none 0 _ (by set_option maxRecDepth 100000 in rfl)

/-! ## Claim C8 — build determinism (corrected: deterministic modulo the
per-run blank node)

Each document's release-event time node is a fresh rdflib `BNode()`
(line 447), so two runs do not produce identical triple sets; everything
else — identifier components, the private graph, and all blank-node-free
triples — is identical for any fixed (documents, media roots, oracle)
input.  The blank-node generator is modelled by the label seed. -/

/-- Membership of a blank-node-free triple is determined by the cleaned
graph. -/
theorem mem_gclean {t : Triple} {g : Graph} (hb : bnodeFree t = true) :
    t ∈ gclean g ↔ t ∈ g := by
  unfold gclean
  rw [List.mem_filter]
  exact ⟨fun h => h.1, fun h => ⟨h, hb⟩⟩

theorem gadd_of_mem {g : Graph} {t : Triple} (h : t ∈ g) : gadd g t = g := by
  simp [gadd, h]

theorem gclean_gadd (g : Graph) (t : Triple) :
    gclean (gadd g t) = if bnodeFree t then gadd (gclean g) t else gclean g := by
  by_cases hb : bnodeFree t = true
  · rw [if_pos hb]
    by_cases hm : t ∈ g
    · rw [gadd_of_mem hm, gadd_of_mem ((mem_gclean hb).mpr hm)]
    · rw [gadd_of_disjoint hm, gadd_of_disjoint (fun hc => hm ((mem_gclean hb).mp hc))]
      unfold gclean
      rw [List.filter_append]
      simp [hb]
  · rw [if_neg hb]
    by_cases hm : t ∈ g
    · rw [gadd_of_mem hm]
    · rw [gadd_of_disjoint hm]
      unfold gclean
      rw [List.filter_append]
      simp [hb]

/-- Cleaning distributes over graph union. -/
theorem gclean_gunion : ∀ (h g : Graph), gclean (gunion g h) = gunion (gclean g) (gclean h) := by
  intro h
  induction h with
  | nil => intro g; rfl
  | cons x xs ih =>
    intro g
    show gclean (gunion (gadd g x) xs) = _
    rw [ih (gadd g x), gclean_gadd]
    by_cases hb : bnodeFree x = true
    · rw [if_pos hb]
      show _ = gunion (gclean g) (List.filter bnodeFree (x :: xs))
      rw [List.filter_cons_of_pos hb]
      rfl
    · rw [if_neg hb]
      show _ = gunion (gclean g) (List.filter bnodeFree (x :: xs))
      rw [List.filter_cons_of_neg hb]
      rfl

/-- Cleaning a `g.add` fold (the triples-list form of union). -/
theorem gclean_foldl_gadd (g : Graph) (l : List Triple) :
    gclean (List.foldl gadd g l) = gunion (gclean g) (gclean l) :=
  gclean_gunion l g

theorem gclean_gadd_congr {g1 g2 : Graph} (h : gclean g1 = gclean g2) (t : Triple) :
    gclean (gadd g1 t) = gclean (gadd g2 t) := by
  rw [gclean_gadd, gclean_gadd, h]

/-- The blank-node-free part of the release-event graph does not depend on
the blank-node label. -/
theorem gclean_releaseEventGraph_bnode (rel re : String) (b1 b2 : Nat)
    (issued : Option String) :
    gclean (releaseEventGraph (Term.uri rel) (Term.uri re) (Term.bnode b1) issued) =
    gclean (releaseEventGraph (Term.uri rel) (Term.uri re) (Term.bnode b2) issued) := by
  unfold releaseEventGraph
  rcases issued with _ | v
  · rcases hyr : extract_year none with _ | yr <;>
      simp [hyr, gclean_gadd, bnodeFree]
  · rcases hyr : extract_year (some v) with _ | yr <;>
      simp only [hyr] <;> (try split_ifs) <;>
      simp [gclean_gadd, bnodeFree]

/-- One labels step preserves the relation (equal release graphs, equal
cleaned globals). -/
theorem labelsStep_congr (release : Term) (li : WsLabelInfo)
    (acc1 acc2 : Graph × Graph) (h2 : acc1.2 = acc2.2)
    (h1 : gclean acc1.1 = gclean acc2.1) :
    (labelsStep release acc1 li).2 = (labelsStep release acc2 li).2 ∧
    gclean (labelsStep release acc1 li).1 = gclean (labelsStep release acc2 li).1 := by
  rcases acc1 with ⟨ga, rga⟩
  rcases acc2 with ⟨gb, rgb⟩
  simp only [] at h1 h2
  subst h2
  unfold labelsStep
  rcases hlid : li.labelId with _ | lid <;>
    rcases hlnm : li.labelName with _ | nm <;>
    rcases hcat : li.catalogNumber with _ | c2 <;>
    simp only [hlid, hlnm, hcat] <;> (try split_ifs) <;>
    (refine ⟨?_, ?_⟩ <;>
      first
        | rfl
        | trivial
        | exact h1
        | exact gclean_gadd_congr h1 _
        | exact gclean_gadd_congr (gclean_gadd_congr h1 _) _)

/-- The labels fold preserves the relation. -/
theorem labelsList_congr (release : Term) : ∀ (lis : List WsLabelInfo)
    (acc1 acc2 : Graph × Graph), acc1.2 = acc2.2 → gclean acc1.1 = gclean acc2.1 →
    (lis.foldl (labelsStep release) acc1).2 = (lis.foldl (labelsStep release) acc2).2 ∧
    gclean (lis.foldl (labelsStep release) acc1).1 =
      gclean (lis.foldl (labelsStep release) acc2).1 := by
  intro lis
  induction lis with
  | nil => intro acc1 acc2 h2 h1; exact ⟨h2, h1⟩
  | cons li rest ih =>
    intro acc1 acc2 h2 h1
    obtain ⟨e2, e1⟩ := labelsStep_congr release li acc1 acc2 h2 h1
    exact ih (labelsStep release acc1 li) (labelsStep release acc2 li) e2 e1

/-- The full labels section preserves the relation. -/
theorem labelsFold_congr (release : Term) (wsJson : Option WsRelease)
    (g1 g2 rg : Graph) (h : gclean g1 = gclean g2) :
    (labelsFold release wsJson g1 rg).2 = (labelsFold release wsJson g2 rg).2 ∧
    gclean (labelsFold release wsJson g1 rg).1 =
      gclean (labelsFold release wsJson g2 rg).1 := by
  unfold labelsFold
  rcases wsJson with _ | ws
  · exact ⟨rfl, h⟩
  · exact labelsList_congr release ws.labelInfo (g1, rg) (g2, rg) rfl h

theorem exceptRel_refl {α : Type} (m : Except Unit α) : exceptRel Eq m m := by
  cases m with
  | error e => trivial
  | ok a => exact rfl

theorem exceptRel_bind {α1 α2 β1 β2 : Type} {R : α1 → α2 → Prop} {S : β1 → β2 → Prop}
    {m1 : Except Unit α1} {m2 : Except Unit α2}
    {f1 : α1 → Except Unit β1} {f2 : α2 → Except Unit β2}
    (hm : exceptRel R m1 m2) (hf : ∀ a1 a2, R a1 a2 → exceptRel S (f1 a1) (f2 a2)) :
    exceptRel S (m1 >>= f1) (m2 >>= f2) := by
  cases m1 with
  | error e1 =>
    cases m2 with
    | error e2 => trivial
    | ok a2 => exact hm.elim
  | ok a1 =>
    cases m2 with
    | error e2 => exact hm.elim
    | ok a2 => exact hf a1 a2 hm

/-- One track-loop iteration preserves the agreement relation, given
release-event graphs with equal blank-node-free parts. -/
theorem trackStep_rel (sim : String → String → Nat) (enr : Enrich)
    (fs : String → Bool) (pr : Option String) (dfp comp : String)
    (release record : Term) (mb : Option String) (aj : Option MbzAlbumJson)
    (ws : Option WsRelease) (REG1 REG2 : Graph)
    (hREG : gclean REG1 = gclean REG2) (st1 st2 : TrackState)
    (hst : tsAgree st1 st2) (e : Nat × Fields) :
    exceptRel tsAgree
      (trackStep sim enr fs pr dfp comp release record mb aj ws REG1 st1 e)
      (trackStep sim enr fs pr dfp comp release record mb aj ws REG2 st2 e) := by
  obtain ⟨hgc, hpv, hrl, hrc, htg, hsg, hpf, hrm⟩ := hst
  unfold trackStep
  rw [hrm]
  refine exceptRel_bind (exceptRel_refl _) ?_
  intro w1 w2 hw
  subst hw
  show tsAgree _ _
  refine ⟨?_, ?_, ?_, ?_, ?_, ?_, ?_, ?_⟩ <;>
    simp only [gclean_gunion, gclean_foldl_gadd, hgc, hREG, hpv, hrl, hrc, htg, hsg, hpf]

/-- The track loop preserves the agreement relation. -/
theorem trackFold_rel (sim : String → String → Nat) (enr : Enrich)
    (fs : String → Bool) (pr : Option String) (dfp comp : String)
    (release record : Term) (mb : Option String) (aj : Option MbzAlbumJson)
    (ws : Option WsRelease) (REG1 REG2 : Graph)
    (hREG : gclean REG1 = gclean REG2) :
    ∀ (tracks : List (Nat × Fields)) (st1 st2 : TrackState), tsAgree st1 st2 →
      exceptRel tsAgree
        (trackFold sim enr fs pr dfp comp release record mb aj ws REG1 st1 tracks)
        (trackFold sim enr fs pr dfp comp release record mb aj ws REG2 st2 tracks) := by
  intro tracks
  induction tracks with
  | nil =>
    intro st1 st2 hst
    exact hst
  | cons e es ih =>
    intro st1 st2 hst
    have hstep := trackStep_rel sim enr fs pr dfp comp release record mb aj ws
      REG1 REG2 hREG st1 st2 hst e
    unfold trackFold
    rcases hs1 : trackStep sim enr fs pr dfp comp release record mb aj ws REG1
        st1 e with e1 | st1b <;>
      rcases hs2 : trackStep sim enr fs pr dfp comp release record mb aj ws REG2
        st2 e with e2 | st2b <;>
      rw [hs1, hs2] at hstep
    · trivial
    · exact hstep.elim
    · exact hstep.elim
    · exact ih st1b st2b hstep

/-- Processing one document under two different blank-node labels preserves
the agreement relation. -/
theorem processDoc_rel (roots : List String) (sim : String → String → Nat)
    (enr : Enrich) (fs : String → Bool) (pr : Option String) (b1 b2 : Nat)
    (acc1 acc2 : BuildOut) (hacc : agreeModBnodes acc1 acc2) (d : CueDoc) :
    exceptRel agreeModBnodes (processDoc roots sim enr fs pr b1 acc1 d)
      (processDoc roots sim enr fs pr b2 acc2 d) := by
  obtain ⟨h1, h2, h3, h4, h5, h6, h7, h8, h9⟩ := hacc
  unfold processDoc
  refine exceptRel_bind (exceptRel_refl _) ?_
  intro rc1 rc2 hrc
  subst hrc
  have hREGg : gclean (releaseEventGraph (Term.uri (nsSSVRelease ++ rc1.2))
        (Term.uri (nsSSVReleaseEvent ++ rc1.2)) (Term.bnode b1)
        (issuedDateOf ((mbidCleanOf d).bind enr.wsRelease) d)) =
      gclean (releaseEventGraph (Term.uri (nsSSVRelease ++ rc1.2))
        (Term.uri (nsSSVReleaseEvent ++ rc1.2)) (Term.bnode b2)
        (issuedDateOf ((mbidCleanOf d).bind enr.wsRelease) d)) :=
    gclean_releaseEventGraph_bnode _ _ b1 b2 _
  have hGb : gclean (gunion (gunion acc1.g
        (releaseGraphInit (Term.uri (nsSSVRelease ++ rc1.2))
          (Term.uri (nsSSVRecord ++ rc1.2)) (assocGet "title" d.header)
          (pyOrOpt (assocGet "catalog" d.header) (assocGet "cddbcat" d.header))
          (mbidCleanOf d)))
        (releaseEventGraph (Term.uri (nsSSVRelease ++ rc1.2))
          (Term.uri (nsSSVReleaseEvent ++ rc1.2)) (Term.bnode b1)
          (issuedDateOf ((mbidCleanOf d).bind enr.wsRelease) d))) =
      gclean (gunion (gunion acc2.g
        (releaseGraphInit (Term.uri (nsSSVRelease ++ rc1.2))
          (Term.uri (nsSSVRecord ++ rc1.2)) (assocGet "title" d.header)
          (pyOrOpt (assocGet "catalog" d.header) (assocGet "cddbcat" d.header))
          (mbidCleanOf d)))
        (releaseEventGraph (Term.uri (nsSSVRelease ++ rc1.2))
          (Term.uri (nsSSVReleaseEvent ++ rc1.2)) (Term.bnode b2)
          (issuedDateOf ((mbidCleanOf d).bind enr.wsRelease) d))) := by
    simp only [gclean_gunion, h1, hREGg]
  refine exceptRel_bind
    (trackFold_rel sim enr fs pr d.filePath rc1.2 _ _ _ _ _ _ _ hREGg _ _ _
      ⟨(labelsFold_congr _ _ _ _ _ hGb).2, h2, (labelsFold_congr _ _ _ _ _ hGb).1,
       rfl, rfl, rfl, rfl, rfl⟩) ?_
  intro fin1 fin2 hfin
  obtain ⟨k1, k2, k3, k4, k5, k6, k7, k8⟩ := hfin
  show agreeModBnodes _ _
  refine ⟨k1, k2, ?_, ?_, ?_, ?_, ?_, ?_, ?_⟩
  · show acc1.locRelease ++ _ = acc2.locRelease ++ _
    rw [h3, k3]
  · show List.map _ (acc1.locReleaseEvent ++ _) = List.map _ (acc2.locReleaseEvent ++ _)
    simp only [List.map_append, h4, List.map_cons, List.map_nil, hREGg]
  · show acc1.locRecord ++ _ = acc2.locRecord ++ _
    rw [h5, k4]
  · show acc1.locTrack ++ _ = acc2.locTrack ++ _
    rw [h6, k5]
  · show acc1.locSignal ++ _ = acc2.locSignal ++ _
    rw [h7, k6]
  · show acc1.locPerformance ++ _ = acc2.locPerformance ++ _
    rw [h8, k7]
  · show acc1.locPerformer ++ _ = acc2.locPerformer ++ _
    rw [h9, k7]

/-- The document fold preserves the agreement relation for any pair of
blank-node seeds. -/
theorem docsFold_rel (roots : List String) (sim : String → String → Nat)
    (enr : Enrich) (fs : String → Bool) (pr : Option String) :
    ∀ (ds : List CueDoc) (k1 k2 : Nat) (acc1 acc2 : BuildOut),
      agreeModBnodes acc1 acc2 →
      exceptRel agreeModBnodes (docsFold roots sim enr fs pr k1 acc1 ds)
        (docsFold roots sim enr fs pr k2 acc2 ds) := by
  intro ds
  induction ds with
  | nil =>
    intro k1 k2 acc1 acc2 h
    exact h
  | cons d rest ih =>
    intro k1 k2 acc1 acc2 h
    have hpd := processDoc_rel roots sim enr fs pr k1 k2 acc1 acc2 h d
    unfold docsFold
    rcases hp1 : processDoc roots sim enr fs pr k1 acc1 d with e1 | a1 <;>
      rcases hp2 : processDoc roots sim enr fs pr k2 acc2 d with e2 | a2 <;>
      rw [hp1, hp2] at hpd
    · trivial
    · exact hpd.elim
    · exact hpd.elim
    · exact ih (k1 + 1) (k2 + 1) a1 a2 hpd

/-- Claim C8 (counterexample): two runs of the builder on identical inputs
that differ only in the blank-node generator state produce different triple
sets — the release-event time node is a fresh blank node per run. -/
theorem seeds_change_triple_set :
    (build_rdf_content [twoTrackDoc] ["/music"] simExact enrichNone
        (fun _ => false) none 0).toOption.map (fun o => o.g) ≠
    (build_rdf_content [twoTrackDoc] ["/music"] simExact enrichNone
        (fun _ => false) none 1).toOption.map (fun o => o.g) := by
  set_option maxRecDepth 100000 in decide

/-- Claim C8 (amended): the builder is deterministic modulo blank-node
identity: for a fixed document list, media-root list, similarity metric,
enrichment oracle, filesystem and peaks configuration, any two runs (any two
blank-node seeds) fail together or produce identical identifier components,
identical private graphs, identical per-entity graph collections (the
release-event graphs compared on their blank-node-free parts), and global
graphs with identical blank-node-free parts. -/
theorem build_deterministic_mod_bnodes (docs : List CueDoc)
    (mediaRoots : List String) (sim : String → String → Nat) (enr : Enrich)
    (fs : String → Bool) (pr : Option String) (s1 s2 : Nat) :
    buildsAgreeModBnodes (build_rdf_content docs mediaRoots sim enr fs pr s1)
      (build_rdf_content docs mediaRoots sim enr fs pr s2) := by
  unfold build_rdf_content buildsAgreeModBnodes
  exact docsFold_rel (mediaRoots.map normalize_path) sim enr fs pr docs s1 s2
    emptyBuildOut emptyBuildOut ⟨rfl, rfl, rfl, rfl, rfl, rfl, rfl, rfl, rfl⟩

end CueToRdf
